import Mathlib

/-! AERAS ride ledger (`src/Backend/server.js`).

A shallow embedding of the in-memory store of the backend server (`rides`,
`pullerPoints`, `rideCounter`) and of its six route handlers, followed by the
properties proved about them.

Modelling conventions.

* The three module-level variables form the record `Ledger`; a handler is a function
  from the current time and the ledger to the new ledger and the HTTP response.
* `new Date().toISOString()` is an input of the handler (`now`).
* `express.json()` hands the `/request-ride` handler any parsed JSON value, so a body
  field is an absent value or a JSON value (`Json`), and `req.body` itself is undefined
  when no body was parsed (`ReqBody.missing`).  Truthiness (`!x`) and conversion to a
  string (a template literal, a property key) follow JavaScript: conversion fails with a
  TypeError for an object that has a member `toString` (or an array holding one), and
  the handler is then answered by the default error handler with status 500, keeping
  the mutations already made.
* A JSON number is represented by the string JavaScript converts it to, which decides
  what the handlers use of it: it is zero exactly when that string is `0`.
* `rideCounter` is a natural number and `rides` a list.  An array holds at most
  2^32 - 1 elements, so `push` stops adding rides long before the counter leaves the
  range of exactly represented integers (below 2^53); a store of that size is not
  modelled.
* `pullerPoints` is a plain object literal, so a property read `pullerPoints[k]` sees
  the own properties first and then the properties inherited from `Object.prototype`.
  Both are modelled (`ownLookup`, `protoLookup`), since the drop-off handler reads an
  arbitrary, caller-chosen key.  The order in which own properties are enumerated is
  not modelled.
-/

namespace AERAS

/-! ## JSON values -/

/-- A value produced by `JSON.parse`.  A number is given by the string JavaScript
converts it to. -/
inductive Json where
  | null
  | bool (b : Bool)
  | num (text : String)
  | str (s : String)
  | arr (items : List Json)
  | obj (members : List (String × Json))

mutual
/-- Decision procedure for equality of JSON values. -/
def Json.decEq : (a b : Json) → Decidable (a = b)
  | .null, .null => isTrue rfl
  | .null, .bool _ => isFalse Json.noConfusion
  | .null, .num _ => isFalse Json.noConfusion
  | .null, .str _ => isFalse Json.noConfusion
  | .null, .arr _ => isFalse Json.noConfusion
  | .null, .obj _ => isFalse Json.noConfusion
  | .bool _, .null => isFalse Json.noConfusion
  | .bool a, .bool b =>
    if h : a = b then isTrue (congrArg Json.bool h)
    else isFalse (fun e => h (Json.bool.inj e))
  | .bool _, .num _ => isFalse Json.noConfusion
  | .bool _, .str _ => isFalse Json.noConfusion
  | .bool _, .arr _ => isFalse Json.noConfusion
  | .bool _, .obj _ => isFalse Json.noConfusion
  | .num _, .null => isFalse Json.noConfusion
  | .num _, .bool _ => isFalse Json.noConfusion
  | .num a, .num b =>
    if h : a = b then isTrue (congrArg Json.num h)
    else isFalse (fun e => h (Json.num.inj e))
  | .num _, .str _ => isFalse Json.noConfusion
  | .num _, .arr _ => isFalse Json.noConfusion
  | .num _, .obj _ => isFalse Json.noConfusion
  | .str _, .null => isFalse Json.noConfusion
  | .str _, .bool _ => isFalse Json.noConfusion
  | .str _, .num _ => isFalse Json.noConfusion
  | .str a, .str b =>
    if h : a = b then isTrue (congrArg Json.str h)
    else isFalse (fun e => h (Json.str.inj e))
  | .str _, .arr _ => isFalse Json.noConfusion
  | .str _, .obj _ => isFalse Json.noConfusion
  | .arr _, .null => isFalse Json.noConfusion
  | .arr _, .bool _ => isFalse Json.noConfusion
  | .arr _, .num _ => isFalse Json.noConfusion
  | .arr _, .str _ => isFalse Json.noConfusion
  | .arr a, .arr b =>
    match Json.decEqItems a b with
    | isTrue h => isTrue (congrArg Json.arr h)
    | isFalse h => isFalse (fun e => h (Json.arr.inj e))
  | .arr _, .obj _ => isFalse Json.noConfusion
  | .obj _, .null => isFalse Json.noConfusion
  | .obj _, .bool _ => isFalse Json.noConfusion
  | .obj _, .num _ => isFalse Json.noConfusion
  | .obj _, .str _ => isFalse Json.noConfusion
  | .obj _, .arr _ => isFalse Json.noConfusion
  | .obj a, .obj b =>
    match Json.decEqMembers a b with
    | isTrue h => isTrue (congrArg Json.obj h)
    | isFalse h => isFalse (fun e => h (Json.obj.inj e))
/-- Decision procedure for equality of lists of JSON values. -/
def Json.decEqItems : (a b : List Json) → Decidable (a = b)
  | [], [] => isTrue rfl
  | [], _ :: _ => isFalse List.noConfusion
  | _ :: _, [] => isFalse List.noConfusion
  | x :: xs, y :: ys =>
    match Json.decEq x y, Json.decEqItems xs ys with
    | isTrue h1, isTrue h2 => isTrue (by rw [h1, h2])
    | isFalse h1, _ => isFalse (fun e => h1 (List.cons.inj e).1)
    | _, isFalse h2 => isFalse (fun e => h2 (List.cons.inj e).2)
/-- Decision procedure for equality of lists of object members. -/
def Json.decEqMembers : (a b : List (String × Json)) → Decidable (a = b)
  | [], [] => isTrue rfl
  | [], _ :: _ => isFalse List.noConfusion
  | _ :: _, [] => isFalse List.noConfusion
  | (k, x) :: xs, (l, y) :: ys =>
    if hk : k = l then
      match Json.decEq x y, Json.decEqMembers xs ys with
      | isTrue h1, isTrue h2 => isTrue (by rw [hk, h1, h2])
      | isFalse h1, _ => isFalse (fun e => h1 (Prod.mk.inj (List.cons.inj e).1).2)
      | _, isFalse h2 => isFalse (fun e => h2 (List.cons.inj e).2)
    else isFalse (fun e => hk (Prod.mk.inj (List.cons.inj e).1).1)
end

instance Json.instDecidableEq : DecidableEq Json := Json.decEq

mutual
/-- The conversion `ToString` of a JSON value, as done by a template literal and by a
property access `o[v]`; `none` when it throws a TypeError.  A primitive converts to its
text; an array to its items joined by commas, `null` items counting as empty; an object
to `[object Object]`, unless it has a member `toString`, which hides the inherited
method and is not callable. -/
def Json.toStr : Json → Option String
  | .null => some "null"
  | .bool b => some (if b then "true" else "false")
  | .num text => some text
  | .str s => some s
  | .arr items => (Json.itemStrs items).map (String.intercalate ",")
  | .obj members =>
    if members.any (fun m => m.1 == "toString") then none else some "[object Object]"
/-- The texts of the items of an array, for `join`. -/
def Json.itemStrs : List Json → Option (List String)
  | [] => some []
  | x :: xs =>
    match (match x with
      | .null => some ""
      | y => Json.toStr y), Json.itemStrs xs with
    | some a, some l => some (a :: l)
    | _, _ => none
end

/-! ## Data model -/

/-- A ride record, the object literal `newRide` of the `/request-ride` handler together
with the three properties the transition handlers add later (absent until then). -/
structure Ride where
  id : String
  pickup : Json
  destination : Json
  pullerId : Json
  status : String
  requestTime : String
  points : Nat
  acceptTime : Option String
  pickupTime : Option String
  dropoffTime : Option String
  deriving DecidableEq

/-- A value stored in `pullerPoints`: a number, or the string that `+=` produces when
the left operand is not a number. -/
inductive JSVal where
  | num (n : Nat)
  | str (s : String)
  deriving DecidableEq

/-- The module-level store: `rides`, `pullerPoints` (its own properties) and
`rideCounter`. -/
structure Ledger where
  rides : List Ride
  pullerPoints : List (String × JSVal)
  rideCounter : Nat
  deriving DecidableEq

/-- The body of a response: one of the JSON bodies the handlers send, or the error
page of the default error handler of Express (`internalError`). -/
inductive Body where
  | message (m : String)
  | created (m : String) (rideId : String)
  | snapshot (rides : List Ride) (pullerPoints : List (String × JSVal))
  | status (s : String)
  | ride (r : Ride)
  | internalError
  deriving DecidableEq

/-- An HTTP response: status code and JSON body. -/
structure Response where
  code : Nat
  body : Body
  deriving DecidableEq

/-- The store at start-up: `rides = []`, `pullerPoints = { "puller_001": 0 }`,
`rideCounter = 1`. -/
def initial : Ledger :=
  { rides := [], pullerPoints := [("puller_001", JSVal.num 0)], rideCounter := 1 }

/-- The constant `BASE_POINTS_PER_RIDE`. -/
def BASE_POINTS_PER_RIDE : Nat := 10

/-! ## JavaScript primitives used by the handlers -/

/-- Truthiness of a body field: `!x` is true for `undefined`, `null`, `false`, the
number zero and the empty string, and false for every other value, arrays and objects
included. -/
def truthy : Option Json → Bool
  | none => false
  | some Json.null => false
  | some (Json.bool b) => b
  | some (Json.num text) => text != "0"
  | some (Json.str v) => v != ""
  | some (Json.arr _) => true
  | some (Json.obj _) => true

/-- The value of a body field that passed the truthiness test. -/
def fieldValue : Option Json → Json
  | none => Json.null
  | some v => v

/-- The template literal `ride_${n}`. -/
def rideIdOf (n : Nat) : String := "ride_" ++ toString n

/-- The call `rides.find(r => r.id === id)`: the first ride with that id. -/
def findRide (rides : List Ride) (id : String) : Option Ride :=
  rides.find? (fun r => r.id == id)

/-- The effect on the array of mutating the object returned by `find`: the first
ride with that id is replaced by its updated version. -/
def replaceRide (id : String) (r' : Ride) : List Ride → List Ride
  | [] => []
  | r :: rs => if r.id = id then r' :: rs else r :: replaceRide id r' rs

/-- The own property `k` of `pullerPoints`, if there is one. -/
def ownLookup (pp : List (String × JSVal)) (k : String) : Option JSVal :=
  (pp.find? (fun e => e.1 == k)).map Prod.snd

/-- Assignment to the own property `k`: the entry is overwritten where it exists and
created otherwise. -/
def setOwn (k : String) (v : JSVal) : List (String × JSVal) → List (String × JSVal)
  | [] => [(k, v)]
  | e :: es => if e.1 = k then (k, v) :: es else e :: setOwn k v es

/-- The properties of `Object.prototype`, each with the string its value converts to
under `+` (a native function as Node prints it, or for the accessor `__proto__` the
prototype object itself). -/
def protoLookup (k : String) : Option String :=
  if k = "constructor" then some "function Object() \x7b [native code] \x7d"
  else if k = "__defineGetter__" then some "function __defineGetter__() \x7b [native code] \x7d"
  else if k = "__defineSetter__" then some "function __defineSetter__() \x7b [native code] \x7d"
  else if k = "hasOwnProperty" then some "function hasOwnProperty() \x7b [native code] \x7d"
  else if k = "__lookupGetter__" then some "function __lookupGetter__() \x7b [native code] \x7d"
  else if k = "__lookupSetter__" then some "function __lookupSetter__() \x7b [native code] \x7d"
  else if k = "isPrototypeOf" then some "function isPrototypeOf() \x7b [native code] \x7d"
  else if k = "propertyIsEnumerable" then
    some "function propertyIsEnumerable() \x7b [native code] \x7d"
  else if k = "toString" then some "function toString() \x7b [native code] \x7d"
  else if k = "valueOf" then some "function valueOf() \x7b [native code] \x7d"
  else if k = "__proto__" then some "[object Object]"
  else if k = "toLocaleString" then some "function toLocaleString() \x7b [native code] \x7d"
  else none

/-- The statement
`if (pullerPoints[k] !== undefined) pullerPoints[k] += awarded; else pullerPoints[k] = awarded;`
of the drop-off handler.  An own number is incremented; an own string is extended by
the digits of the award; an inherited value is converted to a string, extended and
stored as an own property, except under the key `__proto__`, whose setter ignores a
string; a key found nowhere gets the award. -/
def awardPoints (pp : List (String × JSVal)) (k : String) (awarded : Nat) :
    List (String × JSVal) :=
  match ownLookup pp k with
  | some (JSVal.num n) => setOwn k (JSVal.num (n + awarded)) pp
  | some (JSVal.str s) => setOwn k (JSVal.str (s ++ toString awarded)) pp
  | none =>
    match protoLookup k with
    | some s => if k = "__proto__" then pp else setOwn k (JSVal.str (s ++ toString awarded)) pp
    | none => setOwn k (JSVal.num awarded) pp

/-! ## The route handlers -/

/-- The object literal `newRide` of the `/request-ride` handler. -/
def newRide (counter : Nat) (pickup destination pullerId : Json) (now : String) : Ride :=
  { id := rideIdOf counter
    pickup := pickup
    destination := destination
    pullerId := pullerId
    status := "pending"
    requestTime := now
    points := 0
    acceptTime := none
    pickupTime := none
    dropoffTime := none }

/-- What the `/request-ride` handler finds in `req.body`: nothing (`undefined`, as
Express 5 leaves it when no JSON body was parsed), or a parsed body with its three
fields, each absent or a JSON value. -/
inductive ReqBody where
  | missing
  | fields (pickup destination pullerId : Option Json)
  deriving DecidableEq

/-- Route `POST /request-ride`.  Destructuring an undefined body throws before anything
is done.  After validation the ride is built (consuming the counter) and pushed; the
log line then converts `pickup` and `destination` to strings, and when that throws the
request is answered 500 with the ride already stored. -/
def requestRide (now : String) (s : Ledger) : ReqBody → Ledger × Response
  | ReqBody.missing => (s, ⟨500, Body.internalError⟩)
  | ReqBody.fields pickup destination pullerId =>
    if !truthy pickup || !truthy destination || !truthy pullerId then
      (s, ⟨400, Body.message "Missing required info (pickup, destination, pullerId)."⟩)
    else
      let ride := newRide s.rideCounter (fieldValue pickup) (fieldValue destination)
        (fieldValue pullerId) now
      let s' : Ledger := { s with rides := s.rides ++ [ride], rideCounter := s.rideCounter + 1 }
      match (fieldValue pickup).toStr, (fieldValue destination).toStr with
      | some _, some _ => (s', ⟨201, Body.created "Ride request created successfully." ride.id⟩)
      | _, _ => (s', ⟨500, Body.internalError⟩)

/-- Route `GET /rides`. -/
def getRides (s : Ledger) : Ledger × Response :=
  (s, ⟨200, Body.snapshot s.rides s.pullerPoints⟩)

/-- Route `GET /ride-status/:id`. -/
def rideStatus (s : Ledger) (id : String) : Ledger × Response :=
  match findRide s.rides id with
  | some ride => (s, ⟨200, Body.status ride.status⟩)
  | none => (s, ⟨404, Body.message "Ride not found."⟩)

/-- The assignments `ride.status = 'accepted'; ride.acceptTime = now`. -/
def markAccepted (now : String) (ride : Ride) : Ride :=
  { ride with status := "accepted", acceptTime := some now }

/-- The assignments `ride.status = 'in_progress'; ride.pickupTime = now`. -/
def markPickedUp (now : String) (ride : Ride) : Ride :=
  { ride with status := "in_progress", pickupTime := some now }

/-- The assignments `ride.status = 'completed'; ride.dropoffTime = now;
ride.points = awardedPoints`. -/
def markCompleted (now : String) (awardedPoints : Nat) (ride : Ride) : Ride :=
  { ride with status := "completed", dropoffTime := some now, points := awardedPoints }

/-- Route `POST /accept-ride/:id`. -/
def acceptRide (now : String) (s : Ledger) (id : String) : Ledger × Response :=
  match findRide s.rides id with
  | some ride =>
    if ride.status = "pending" then
      let ride' := markAccepted now ride
      ({ s with rides := replaceRide id ride' s.rides }, ⟨200, Body.ride ride'⟩)
    else (s, ⟨404, Body.message "Unable to accept ride."⟩)
  | none => (s, ⟨404, Body.message "Unable to accept ride."⟩)

/-- Route `POST /confirm-pickup/:id`. -/
def confirmPickup (now : String) (s : Ledger) (id : String) : Ledger × Response :=
  match findRide s.rides id with
  | some ride =>
    if ride.status = "accepted" then
      let ride' := markPickedUp now ride
      ({ s with rides := replaceRide id ride' s.rides }, ⟨200, Body.ride ride'⟩)
    else (s, ⟨404, Body.message "Unable to confirm pickup."⟩)
  | none => (s, ⟨404, Body.message "Unable to confirm pickup."⟩)

/-- Route `POST /confirm-dropoff/:id`.  The ride is updated first; the access
`pullerPoints[ride.pullerId]` then converts the puller id to a property key, and when
that throws the request is answered 500 with the ride completed and no award made. -/
def confirmDropoff (now : String) (s : Ledger) (id : String) : Ledger × Response :=
  match findRide s.rides id with
  | some ride =>
    if ride.status = "in_progress" then
      let awardedPoints := BASE_POINTS_PER_RIDE
      let ride' := markCompleted now awardedPoints ride
      match ride'.pullerId.toStr with
      | some key =>
        ({ s with
            rides := replaceRide id ride' s.rides
            pullerPoints := awardPoints s.pullerPoints key awardedPoints },
          ⟨200, Body.ride ride'⟩)
      | none => ({ s with rides := replaceRide id ride' s.rides }, ⟨500, Body.internalError⟩)
    else (s, ⟨404, Body.message "Unable to confirm drop-off."⟩)
  | none => (s, ⟨404, Body.message "Unable to confirm drop-off."⟩)

/-! ## Operations, steps and reachable states -/

/-- A request to one of the six routes. -/
inductive Op where
  | requestRide (body : ReqBody)
  | rides
  | rideStatus (id : String)
  | acceptRide (id : String)
  | confirmPickup (id : String)
  | confirmDropoff (id : String)
  deriving DecidableEq

/-- One request served at time `now`. -/
def step (now : String) (s : Ledger) : Op → Ledger × Response
  | Op.requestRide body => requestRide now s body
  | Op.rides => getRides s
  | Op.rideStatus id => rideStatus s id
  | Op.acceptRide id => acceptRide now s id
  | Op.confirmPickup id => confirmPickup now s id
  | Op.confirmDropoff id => confirmDropoff now s id

/-- The ledgers the server can be in: the initial one and those obtained from a
reachable one by serving a request. -/
inductive Reachable : Ledger → Prop where
  | init : Reachable initial
  | step (now : String) (op : Op) {s : Ledger} (h : Reachable s) :
      Reachable (step now s op).1

/-- Serving a sequence of timed requests, collecting the responses in order. -/
def run (s : Ledger) : List (String × Op) → Ledger × List Response
  | [] => (s, [])
  | (now, op) :: rest =>
    let r := step now s op
    let t := run r.1 rest
    (t.1, r.2 :: t.2)

/-! ## Notions used in the statements -/

/-- The lifecycle order of the status strings written by the handlers:
`'pending' -> 'accepted' -> 'in_progress' -> 'completed'` (the comment on the `status`
property of `newRide`). -/
def nextStatus (st : String) : Option String :=
  if st = "pending" then some "accepted"
  else if st = "accepted" then some "in_progress"
  else if st = "in_progress" then some "completed"
  else none

/-- The sum of `points` over the rides of puller `p` whose status is `completed`; a
ride belongs to the puller `p` when its puller id is `p` as a property key. -/
def completedPoints (rides : List Ride) (p : String) : Nat :=
  ((rides.filter (fun r => r.pullerId.toStr == some p && r.status == "completed")).map
    Ride.points).sum

/-- The ride ids handed out by the successful `/request-ride` responses of a run, in
order. -/
def issuedIds : List Response → List String
  | [] => []
  | ⟨201, Body.created _ rideId⟩ :: rest => rideId :: issuedIds rest
  | _ :: rest => issuedIds rest

/-- A body field that is present and non-empty: a value other than `null`, the empty
string, the empty array and the empty object. -/
def PresentNonEmpty (x : Option Json) : Prop :=
  ∃ v, x = some v ∧ v ≠ Json.null ∧ v ≠ Json.str "" ∧ v ≠ Json.arr [] ∧ v ≠ Json.obj []

/-- A body field that is truthy in JavaScript: a value other than `null`, `false`, the
number zero and the empty string. -/
def Truthy (x : Option Json) : Prop :=
  ∃ v, x = some v ∧ v ≠ Json.null ∧ v ≠ Json.bool false ∧ v ≠ Json.num "0" ∧
    v ≠ Json.str ""

/-- A body field that a template literal can convert to a string. -/
def Convertible (x : Option Json) : Prop :=
  ∃ v t, x = some v ∧ v.toStr = some t

/-- The number read off a list of decimal digit characters, most significant first. -/
def digitsValue (l : List Char) : Nat :=
  l.foldl (fun a c => 10 * a + (c.toNat - 48)) 0

/-- The ids in a ledger all come from counter values already consumed, without
repetition. -/
def IdsFresh (s : Ledger) : Prop :=
  (∀ r ∈ s.rides, ∃ k, k < s.rideCounter ∧ r.id = rideIdOf k) ∧
    (s.rides.map Ride.id).Nodup

/-- The ledger agrees with the rides on the puller `p`: the entry of `p` is the sum of
the points of the completed rides of `p`, an absent entry standing for no completed
ride. -/
def EntryMatches (s : Ledger) (p : String) : Prop :=
  (ownLookup s.pullerPoints p = none ∧ completedPoints s.rides p = 0) ∨
    ownLookup s.pullerPoints p = some (JSVal.num (completedPoints s.rides p))

/-- A ride requested, accepted, picked up and dropped off, for the puller `p`. -/
def fullRide (p : String) : List (String × Op) :=
  [("2025-01-01T10:00:00.000Z",
      Op.requestRide (ReqBody.fields (some (Json.str "CUET Campus"))
        (some (Json.str "Pahartoli")) (some (Json.str p)))),
    ("2025-01-01T10:01:00.000Z", Op.acceptRide "ride_1"),
    ("2025-01-01T10:02:00.000Z", Op.confirmPickup "ride_1"),
    ("2025-01-01T10:03:00.000Z", Op.confirmDropoff "ride_1")]

/-- A single ride request whose pickup is the object with the one member `toString`,
a value the log line of the handler cannot convert to a string. -/
def unloggableRequest : List (String × Op) :=
  [("2025-01-01T10:00:00.000Z",
    Op.requestRide (ReqBody.fields (some (Json.obj [("toString", Json.null)]))
      (some (Json.str "Pahartoli")) (some (Json.str "puller_001"))))]

/-- The ledger after the first `n` requests of `fullRide p`. -/
def ledgerAfter (n : Nat) (p : String) : Ledger :=
  (run initial ((fullRide p).take n)).1

/-- The position of a status in the lifecycle; a string that is not one of the four
status names counts as the start. -/
def statusRank (st : String) : Nat :=
  if st = "accepted" then 1
  else if st = "in_progress" then 2
  else if st = "completed" then 3
  else 0

/-- The number of requests of a run that are the request `op` and were answered 200. -/
def successes (op : Op) : List (String × Op) → List Response → Nat
  | (_, o) :: rest, r :: rs =>
    (if o = op ∧ r.code = 200 then 1 else 0) + successes op rest rs
  | _, _ => 0

/-- The timestamps of a ride agree with its status: each of the accept, pickup and
drop-off times is present exactly from the corresponding status on, and the status is
one of the four status names. -/
def WellTimed (r : Ride) : Prop :=
  (r.status = "pending" ∧ r.acceptTime = none ∧ r.pickupTime = none ∧
      r.dropoffTime = none) ∨
  (r.status = "accepted" ∧ r.acceptTime ≠ none ∧ r.pickupTime = none ∧
      r.dropoffTime = none) ∨
  (r.status = "in_progress" ∧ r.acceptTime ≠ none ∧ r.pickupTime ≠ none ∧
      r.dropoffTime = none) ∨
  (r.status = "completed" ∧ r.acceptTime ≠ none ∧ r.pickupTime ≠ none ∧
      r.dropoffTime ≠ none)

/-- The three transition routes. -/
inductive Transition where
  | accept
  | pickup
  | dropoff
  deriving DecidableEq

/-- The request of a transition route for an id. -/
def Transition.request : Transition → String → Op
  | Transition.accept, id => Op.acceptRide id
  | Transition.pickup, id => Op.confirmPickup id
  | Transition.dropoff, id => Op.confirmDropoff id

/-- The status a handler requires of the ride it found (`ride.status === ...`). -/
def Transition.required : Transition → String
  | Transition.accept => "pending"
  | Transition.pickup => "accepted"
  | Transition.dropoff => "in_progress"

/-- The ids of the first `k` rides ever created: `ride_1`, ..., `ride_k`. -/
def firstIds (k : Nat) : List String :=
  (List.range k).map (fun i => rideIdOf (i + 1))

/-! ## Decimal formatting of the counter -/

theorem toDigitsCore_append (f : Nat) : ∀ (n : Nat) (ds : List Char),
    Nat.toDigitsCore 10 f n ds = Nat.toDigitsCore 10 f n [] ++ ds := by
  induction f with
  | zero => intro n ds; simp [Nat.toDigitsCore]
  | succ f ih =>
    intro n ds
    simp only [Nat.toDigitsCore]
    split
    · simp
    · rw [ih (n / 10) (Nat.digitChar (n % 10) :: ds), ih (n / 10) [Nat.digitChar (n % 10)]]
      simp

theorem digitChar_value (d : Nat) (h : d < 10) : (Nat.digitChar d).toNat - 48 = d := by
  interval_cases d <;> rfl

theorem digitsValue_toDigitsCore (f : Nat) : ∀ n : Nat, n < f →
    digitsValue (Nat.toDigitsCore 10 f n []) = n := by
  induction f with
  | zero => intro n h; omega
  | succ f ih =>
    intro n h
    simp only [Nat.toDigitsCore]
    split
    · rename_i h0
      simp only [digitsValue, List.foldl, Nat.mul_zero, Nat.zero_add]
      rw [digitChar_value _ (Nat.mod_lt _ (by decide))]
      omega
    · rename_i h0
      rw [toDigitsCore_append]
      have := ih (n / 10) (by omega)
      simp only [digitsValue] at this ⊢
      rw [List.foldl_append]
      simp only [List.foldl]
      rw [this, digitChar_value _ (Nat.mod_lt _ (by decide))]
      omega

theorem toString_nat_injective {a b : Nat} (h : toString a = toString b) : a = b := by
  have h1 : Nat.toDigits 10 a = Nat.toDigits 10 b := by
    have := congrArg String.data h
    simpa [toString, Nat.repr, List.asString] using this
  have ha := digitsValue_toDigitsCore (a + 1) a (by omega)
  have hb := digitsValue_toDigitsCore (b + 1) b (by omega)
  simp only [Nat.toDigits] at h1
  rw [h1] at ha
  omega

theorem rideIdOf_injective {a b : Nat} (h : rideIdOf a = rideIdOf b) : a = b := by
  apply toString_nat_injective
  have := congrArg String.data h
  simp only [rideIdOf, String.data_append, List.append_cancel_left_eq] at this
  exact String.ext this

/-! ## Lookup and in-place update of a ride -/

theorem findRide_some {l : List Ride} {id : String} {ride : Ride}
    (h : findRide l id = some ride) : ride ∈ l ∧ ride.id = id := by
  unfold findRide at h
  refine ⟨List.mem_of_find?_eq_some h, ?_⟩
  simpa using List.find?_some h

theorem findRide_none {l : List Ride} {id : String} :
    findRide l id = none ↔ ∀ r ∈ l, r.id ≠ id := by
  simp [findRide]

theorem findRide_cons_eq {x : Ride} {id : String} (h : x.id = id) (xs : List Ride) :
    findRide (x :: xs) id = some x := by
  simp [findRide, List.find?_cons, h]

theorem findRide_cons_ne {x : Ride} {id : String} (h : x.id ≠ id) (xs : List Ride) :
    findRide (x :: xs) id = findRide xs id := by
  simp [findRide, List.find?_cons, h]

theorem replaceRide_length (id : String) (r' : Ride) (l : List Ride) :
    (replaceRide id r' l).length = l.length := by
  induction l with
  | nil => rfl
  | cons r rs ih =>
    simp only [replaceRide]
    split <;> simp [ih]

theorem replaceRide_map_id (id : String) (r' : Ride) (h : r'.id = id) (l : List Ride) :
    (replaceRide id r' l).map Ride.id = l.map Ride.id := by
  induction l with
  | nil => rfl
  | cons r rs ih =>
    simp only [replaceRide]
    split
    · rename_i hr
      simp [h, hr]
    · simp [ih]

theorem replaceRide_getElem? (id : String) (r' : Ride) :
    ∀ (l : List Ride) (ride : Ride), findRide l id = some ride →
      ∀ (i : Nat) (r : Ride), l[i]? = some r →
        (replaceRide id r' l)[i]? = some r ∨
          (r = ride ∧ (replaceRide id r' l)[i]? = some r') := by
  intro l
  induction l with
  | nil => intro ride _ i r hr; simp at hr
  | cons x xs ih =>
    intro ride hf i r hr
    simp only [replaceRide]
    by_cases hx : x.id = id
    · simp only [hx, if_true]
      have hride : ride = x := by
        rw [findRide_cons_eq hx] at hf
        exact (Option.some.inj hf).symm
      cases i with
      | zero =>
        right
        simp at hr
        exact ⟨by rw [← hr, hride], by simp⟩
      | succ j =>
        left
        simpa using hr
    · simp only [hx, if_false]
      have hf' : findRide xs id = some ride := by
        rwa [findRide_cons_ne hx] at hf
      cases i with
      | zero => left; simpa using hr
      | succ j =>
        simp only [List.getElem?_cons_succ] at hr ⊢
        exact ih ride hf' j r hr

theorem replaceRide_forall {P : Ride → Prop} (id : String) (r' : Ride) (l : List Ride)
    (h : ∀ r ∈ l, P r) (h' : P r') : ∀ r ∈ replaceRide id r' l, P r := by
  induction l with
  | nil => intro r hr; simp [replaceRide] at hr
  | cons x xs ih =>
    intro r hr
    simp only [replaceRide] at hr
    split at hr
    · rcases List.mem_cons.1 hr with h1 | h1
      · exact h1 ▸ h'
      · exact h r (List.mem_cons_of_mem _ h1)
    · rcases List.mem_cons.1 hr with h1 | h1
      · exact h1 ▸ h x (List.mem_cons_self _ _)
      · exact ih (fun y hy => h y (List.mem_cons_of_mem _ hy)) r h1

theorem findRide_replaceRide (id : String) (r' : Ride) (h' : r'.id = id) :
    ∀ (l : List Ride) (ride : Ride), findRide l id = some ride →
      findRide (replaceRide id r' l) id = some r' := by
  intro l
  induction l with
  | nil => intro ride hf; simp [findRide] at hf
  | cons x xs ih =>
    intro ride hf
    simp only [replaceRide]
    by_cases hx : x.id = id
    · simp only [hx, if_true]
      exact findRide_cons_eq h' xs
    · have hf' : findRide xs id = some ride := by
        rwa [findRide_cons_ne hx] at hf
      simp only [hx, if_false]
      rw [findRide_cons_ne hx]
      exact ih ride hf'

/-! ## The shape of one step -/

theorem truthy_iff (x : Option Json) : truthy x = true ↔ Truthy x := by
  cases x with
  | none => simp [truthy, Truthy]
  | some v =>
    cases v with
    | null => simp [truthy, Truthy]
    | bool b => cases b <;> simp [truthy, Truthy]
    | num text => simp [truthy, Truthy]
    | str t => simp [truthy, Truthy]
    | arr items => simp [truthy, Truthy]
    | obj members => simp [truthy, Truthy]

/-- Every request leaves the ledger as it is, appends one pending ride, or advances the
ride found for its id by one of the three updates; the drop-off update comes with the
award under the property key of the puller id, or without award when the puller id has
no property key. -/
theorem step_cases (now : String) (s : Ledger) (op : Op) :
    (step now s op).1 = s ∨
    (∃ p d u, (step now s op).1 =
        { s with rides := s.rides ++ [newRide s.rideCounter p d u now]
                 rideCounter := s.rideCounter + 1 }) ∨
    (∃ id ride, findRide s.rides id = some ride ∧ ride.status = "pending" ∧
      (step now s op).1 = { s with rides := replaceRide id (markAccepted now ride) s.rides }) ∨
    (∃ id ride, findRide s.rides id = some ride ∧ ride.status = "accepted" ∧
      (step now s op).1 = { s with rides := replaceRide id (markPickedUp now ride) s.rides }) ∨
    (∃ id ride key, findRide s.rides id = some ride ∧ ride.status = "in_progress" ∧
      ride.pullerId.toStr = some key ∧
      (step now s op).1 =
        { s with
          rides := replaceRide id (markCompleted now BASE_POINTS_PER_RIDE ride) s.rides
          pullerPoints := awardPoints s.pullerPoints key BASE_POINTS_PER_RIDE }) ∨
    (∃ id ride, findRide s.rides id = some ride ∧ ride.status = "in_progress" ∧
      ride.pullerId.toStr = none ∧
      (step now s op).1 =
        { s with
          rides := replaceRide id (markCompleted now BASE_POINTS_PER_RIDE ride) s.rides }) := by
  cases op with
  | requestRide body =>
    cases body with
    | missing => exact Or.inl rfl
    | fields p d u =>
      simp only [step, requestRide]
      split
      · exact Or.inl rfl
      · split <;> exact Or.inr (Or.inl ⟨_, _, _, rfl⟩)
  | rides => exact Or.inl rfl
  | rideStatus id =>
    simp only [step, rideStatus]
    split <;> exact Or.inl rfl
  | acceptRide id =>
    simp only [step, acceptRide]
    split
    · rename_i ride hf
      split
      · rename_i hs
        exact Or.inr (Or.inr (Or.inl ⟨id, ride, hf, hs, rfl⟩))
      · exact Or.inl rfl
    · exact Or.inl rfl
  | confirmPickup id =>
    simp only [step, confirmPickup]
    split
    · rename_i ride hf
      split
      · rename_i hs
        exact Or.inr (Or.inr (Or.inr (Or.inl ⟨id, ride, hf, hs, rfl⟩)))
      · exact Or.inl rfl
    · exact Or.inl rfl
  | confirmDropoff id =>
    simp only [step, confirmDropoff]
    split
    · rename_i ride hf
      split
      · rename_i hs
        split
        · rename_i key hk
          exact Or.inr (Or.inr (Or.inr (Or.inr (Or.inl ⟨id, ride, key, hf, hs, hk, rfl⟩))))
        · rename_i hk
          exact Or.inr (Or.inr (Or.inr (Or.inr (Or.inr ⟨id, ride, hf, hs, hk, rfl⟩))))
      · exact Or.inl rfl
    · exact Or.inl rfl

theorem reachable_run {s : Ledger} (h : Reachable s) :
    ∀ trace : List (String × Op), Reachable (run s trace).1 := by
  intro trace
  induction trace generalizing s with
  | nil => exact h
  | cons x rest ih => exact ih (Reachable.step x.1 x.2 h)

theorem reachable_iff_run (s : Ledger) :
    Reachable s ↔ ∃ trace : List (String × Op), (run initial trace).1 = s := by
  constructor
  · intro h
    induction h with
    | init => exact ⟨[], rfl⟩
    | step now op _ ih =>
      obtain ⟨trace, ht⟩ := ih
      refine ⟨trace ++ [(now, op)], ?_⟩
      have key : ∀ (t : List (String × Op)) (s0 : Ledger),
          (run s0 (t ++ [(now, op)])).1 = (step now (run s0 t).1 op).1 := by
        intro t
        induction t with
        | nil => intro s0; rfl
        | cons y ys ihy => intro s0; exact ihy _
      rw [key, ht]
  · rintro ⟨trace, rfl⟩
    exact reachable_run Reachable.init trace

/-- An invariant of the rides: a property that holds of a fresh pending ride and is kept
by the three updates holds of every ride of every reachable ledger. -/
theorem rides_forall_of_reachable {P : Ride → Prop}
    (hnew : ∀ n p d u now, P (newRide n p d u now))
    (hacc : ∀ (r : Ride) now, P r → r.status = "pending" → P (markAccepted now r))
    (hpick : ∀ (r : Ride) now, P r → r.status = "accepted" → P (markPickedUp now r))
    (hdrop : ∀ (r : Ride) now, P r → r.status = "in_progress" →
      P (markCompleted now BASE_POINTS_PER_RIDE r))
    {s : Ledger} (h : Reachable s) : ∀ r ∈ s.rides, P r := by
  induction h with
  | init => intro r hr; simp [initial] at hr
  | @step now op s0 _ ih =>
    rcases step_cases now s0 op with h0 | ⟨p, d, u, h0⟩ | ⟨id, ride, hf, hs, h0⟩ |
      ⟨id, ride, hf, hs, h0⟩ | ⟨id, ride, key, hf, hs, _, h0⟩ | ⟨id, ride, hf, hs, _, h0⟩
    · rw [h0]; exact ih
    · rw [h0]
      intro r hr
      rcases List.mem_append.1 hr with h1 | h1
      · exact ih r h1
      · rw [List.mem_singleton.1 h1]; exact hnew _ _ _ _ _
    · rw [h0]
      exact replaceRide_forall _ _ _ ih (hacc ride now (ih ride (findRide_some hf).1) hs)
    · rw [h0]
      exact replaceRide_forall _ _ _ ih (hpick ride now (ih ride (findRide_some hf).1) hs)
    · rw [h0]
      exact replaceRide_forall _ _ _ ih (hdrop ride now (ih ride (findRide_some hf).1) hs)
    · rw [h0]
      exact replaceRide_forall _ _ _ ih (hdrop ride now (ih ride (findRide_some hf).1) hs)

/-! ## Freshness of ride ids -/

theorem idsFresh_initial : IdsFresh initial := by
  simp [IdsFresh, initial]

theorem idsFresh_replaceRide {s : Ledger} (hs : IdsFresh s) {id : String} {ride : Ride}
    (hf : findRide s.rides id = some ride) (r' : Ride) (hid : r'.id = ride.id)
    (pp : List (String × JSVal)) :
    IdsFresh { s with rides := replaceRide id r' s.rides, pullerPoints := pp } := by
  have hrid := (findRide_some hf).2
  refine ⟨?_, ?_⟩
  · refine replaceRide_forall (P := fun r => ∃ k, k < s.rideCounter ∧ r.id = rideIdOf k)
      id r' s.rides hs.1 ?_
    obtain ⟨k, hk, hk'⟩ := hs.1 ride (findRide_some hf).1
    exact ⟨k, hk, by rw [hid, hk']⟩
  · show ((replaceRide id r' s.rides).map Ride.id).Nodup
    rw [replaceRide_map_id id r' (by rw [hid, hrid])]
    exact hs.2

theorem idsFresh_step (now : String) (op : Op) {s : Ledger} (hs : IdsFresh s) :
    IdsFresh (step now s op).1 := by
  rcases step_cases now s op with h0 | ⟨p, d, u, h0⟩ | ⟨id, ride, hf, _, h0⟩ |
    ⟨id, ride, hf, _, h0⟩ | ⟨id, ride, key, hf, _, _, h0⟩ | ⟨id, ride, hf, _, _, h0⟩
  · rw [h0]; exact hs
  · rw [h0]
    refine ⟨?_, ?_⟩
    · intro r hr
      rcases List.mem_append.1 hr with h1 | h1
      · obtain ⟨k, hk, hk'⟩ := hs.1 r h1
        exact ⟨k, Nat.lt_succ_of_lt hk, hk'⟩
      · rw [List.mem_singleton.1 h1]
        exact ⟨s.rideCounter, Nat.lt_succ_self _, rfl⟩
    · show ((s.rides ++ [newRide s.rideCounter p d u now]).map Ride.id).Nodup
      rw [List.map_append, List.nodup_append]
      refine ⟨hs.2, by simp, ?_⟩
      intro x hx hx'
      obtain ⟨r, hr, rfl⟩ := List.mem_map.1 hx
      obtain ⟨k, hk, hk'⟩ := hs.1 r hr
      simp only [List.map_cons, List.map_nil, List.mem_singleton, newRide] at hx'
      rw [hk'] at hx'
      have := rideIdOf_injective hx'
      omega
  · rw [h0]; exact idsFresh_replaceRide hs hf (markAccepted now ride) rfl s.pullerPoints
  · rw [h0]; exact idsFresh_replaceRide hs hf (markPickedUp now ride) rfl s.pullerPoints
  · rw [h0]
    exact idsFresh_replaceRide hs hf (markCompleted now BASE_POINTS_PER_RIDE ride) rfl _
  · rw [h0]
    exact idsFresh_replaceRide hs hf (markCompleted now BASE_POINTS_PER_RIDE ride) rfl
      s.pullerPoints

theorem idsFresh_of_reachable {s : Ledger} (h : Reachable s) : IdsFresh s := by
  induction h with
  | init => exact idsFresh_initial
  | step now op _ ih => exact idsFresh_step now op ih

theorem rideCounter_le_step (now : String) (s : Ledger) (op : Op) :
    s.rideCounter ≤ (step now s op).1.rideCounter := by
  rcases step_cases now s op with h0 | ⟨p, d, u, h0⟩ | ⟨id, ride, _, _, h0⟩ |
    ⟨id, ride, _, _, h0⟩ | ⟨id, ride, key, _, _, _, h0⟩ | ⟨id, ride, _, _, _, h0⟩ <;>
    simp [h0]

/-- The response of a step either issues no id, or issues the id of the current counter
and moves the counter on. -/
theorem issuedIds_step (now : String) (s : Ledger) (op : Op) (rest : List Response) :
    issuedIds ((step now s op).2 :: rest) = issuedIds rest ∨
    (issuedIds ((step now s op).2 :: rest) = rideIdOf s.rideCounter :: issuedIds rest ∧
      (step now s op).1.rideCounter = s.rideCounter + 1) := by
  cases op with
  | requestRide body =>
    cases body with
    | missing => left; rfl
    | fields p d u =>
      simp only [step, requestRide]
      split
      · left; rfl
      · split
        · right; exact ⟨rfl, rfl⟩
        · left; rfl
  | rides => left; rfl
  | rideStatus id =>
    simp only [step, rideStatus]
    split <;> (left; rfl)
  | acceptRide id =>
    simp only [step, acceptRide]
    split
    · split <;> (left; rfl)
    · left; rfl
  | confirmPickup id =>
    simp only [step, confirmPickup]
    split
    · split <;> (left; rfl)
    · left; rfl
  | confirmDropoff id =>
    simp only [step, confirmDropoff]
    split
    · split
      · split <;> (left; rfl)
      · left; rfl
    · left; rfl

theorem issuedIds_run (trace : List (String × Op)) : ∀ s : Ledger,
    (issuedIds (run s trace).2).Nodup ∧
      ∀ x ∈ issuedIds (run s trace).2, ∃ k, s.rideCounter ≤ k ∧ x = rideIdOf k := by
  induction trace with
  | nil => intro s; simp [run, issuedIds]
  | cons y ys ih =>
    intro s
    obtain ⟨now, op⟩ := y
    have hrun : (run s ((now, op) :: ys)).2 =
        (step now s op).2 :: (run (step now s op).1 ys).2 := rfl
    rw [hrun]
    obtain ⟨ih1, ih2⟩ := ih (step now s op).1
    have hle := rideCounter_le_step now s op
    rcases issuedIds_step now s op (run (step now s op).1 ys).2 with h0 | ⟨h0, hc⟩
    · rw [h0]
      refine ⟨ih1, ?_⟩
      intro x hx
      obtain ⟨k, hk, hk'⟩ := ih2 x hx
      exact ⟨k, Nat.le_trans hle hk, hk'⟩
    · rw [h0]
      refine ⟨List.nodup_cons.2 ⟨?_, ih1⟩, ?_⟩
      · intro hmem
        obtain ⟨k, hk, hk'⟩ := ih2 _ hmem
        have := rideIdOf_injective hk'
        omega
      · intro x hx
        rcases List.mem_cons.1 hx with h1 | h1
        · exact ⟨s.rideCounter, Nat.le_refl _, h1⟩
        · obtain ⟨k, hk, hk'⟩ := ih2 x h1
          exact ⟨k, Nat.le_trans hle hk, hk'⟩

/-- C3. After any finite sequence of requests served from the initial ledger, the ids
of the rides in the collection are pairwise distinct, and the ids returned by the
successful ride requests of the sequence are pairwise distinct: no id is issued twice. -/
theorem ride_ids_unique (trace : List (String × Op)) :
    ((run initial trace).1.rides.map Ride.id).Nodup ∧
      (issuedIds (run initial trace).2).Nodup :=
  ⟨(idsFresh_of_reachable (reachable_run Reachable.init trace)).2,
    (issuedIds_run trace initial).1⟩

theorem findRide_append_new {l : List Ride} {x : Ride} (h : ∀ r ∈ l, r.id ≠ x.id) :
    findRide (l ++ [x]) x.id = some x := by
  induction l with
  | nil => exact findRide_cons_eq rfl []
  | cons y ys ih =>
    have hy : y.id ≠ x.id := h y (List.mem_cons_self _ _)
    rw [List.cons_append, findRide_cons_ne hy]
    exact ih (fun r hr => h r (List.mem_cons_of_mem _ hr))

/-- C5, as stated, fails on the code.  In the reachable ledger holding `ride_1`, a
request whose pickup is `false` has three present, non-empty fields and is answered 400
without an id; and a request whose pickup is the object with the single member
`toString` has three present, non-empty fields and is answered 500 without an id. -/
theorem requestRide_present_fields_without_id :
    Reachable (ledgerAfter 1 "puller_001") ∧
    PresentNonEmpty (some (Json.bool false)) ∧
    PresentNonEmpty (some (Json.obj [("toString", Json.null)])) ∧
    PresentNonEmpty (some (Json.str "Pahartoli")) ∧
    PresentNonEmpty (some (Json.str "puller_001")) ∧
    (requestRide "2025-01-01T10:05:00.000Z" (ledgerAfter 1 "puller_001")
      (ReqBody.fields (some (Json.bool false)) (some (Json.str "Pahartoli"))
        (some (Json.str "puller_001")))).2 =
      ⟨400, Body.message "Missing required info (pickup, destination, pullerId)."⟩ ∧
    (requestRide "2025-01-01T10:05:00.000Z" (ledgerAfter 1 "puller_001")
      (ReqBody.fields (some (Json.obj [("toString", Json.null)]))
        (some (Json.str "Pahartoli")) (some (Json.str "puller_001")))).2 =
      ⟨500, Body.internalError⟩ :=
  ⟨reachable_run Reachable.init _,
    ⟨_, rfl, by decide, by decide, by decide, by decide⟩,
    ⟨_, rfl, by decide, by decide, by decide, by decide⟩,
    ⟨_, rfl, by decide, by decide, by decide, by decide⟩,
    ⟨_, rfl, by decide, by decide, by decide, by decide⟩, by decide, by decide⟩

/-- A request whose three fields are truthy and whose pickup and destination convert
to strings is answered 201 with the id of the current counter, after the ride was
appended and the counter moved on. -/
theorem requestRide_accepted (now : String) (s : Ledger)
    (pickup destination pullerId : Option Json) (hp : Truthy pickup)
    (hd : Truthy destination) (hu : Truthy pullerId) (hpc : Convertible pickup)
    (hdc : Convertible destination) :
    requestRide now s (ReqBody.fields pickup destination pullerId) =
      ({ s with
          rides := s.rides ++ [newRide s.rideCounter (fieldValue pickup)
            (fieldValue destination) (fieldValue pullerId) now]
          rideCounter := s.rideCounter + 1 },
        ⟨201, Body.created "Ride request created successfully." (rideIdOf s.rideCounter)⟩) := by
  obtain ⟨v, t, rfl, hv⟩ := hpc
  obtain ⟨w, u, rfl, hw⟩ := hdc
  simp [requestRide, (truthy_iff _).2 hp, (truthy_iff _).2 hd, (truthy_iff _).2 hu,
    fieldValue, hv, hw, newRide]

/-- A request with a parsed body one of whose three fields is not truthy is answered
400 and returns the ledger as it was. -/
theorem requestRide_refused (now : String) (s : Ledger)
    (pickup destination pullerId : Option Json)
    (h : ¬ (Truthy pickup ∧ Truthy destination ∧ Truthy pullerId)) :
    requestRide now s (ReqBody.fields pickup destination pullerId) =
      (s, ⟨400, Body.message "Missing required info (pickup, destination, pullerId)."⟩) := by
  have hcond : (!truthy pickup || !truthy destination || !truthy pullerId) = true := by
    by_contra hc
    apply h
    simp only [Bool.or_eq_true, Bool.not_eq_true', not_or, Bool.not_eq_false] at hc
    exact ⟨(truthy_iff _).1 hc.1.1, (truthy_iff _).1 hc.1.2, (truthy_iff _).1 hc.2⟩
  simp only [requestRide, hcond, if_true]

/-- C5, amended.  In a reachable ledger, a ride request whose pickup, destination and
puller id are all truthy (not absent, `null`, `false`, zero or the empty string) and
whose pickup and destination convert to strings returns an id carried by no ride that
existed before the call, and a status query for that id right afterwards succeeds with
status pending. -/
theorem requestRide_fresh_and_pending (s : Ledger) (h : Reachable s) (now : String)
    (pickup destination pullerId : Option Json) (hp : Truthy pickup)
    (hd : Truthy destination) (hu : Truthy pullerId) (hpc : Convertible pickup)
    (hdc : Convertible destination) :
    ∃ id, (requestRide now s (ReqBody.fields pickup destination pullerId)).2 =
        ⟨201, Body.created "Ride request created successfully." id⟩ ∧
      (∀ r ∈ s.rides, r.id ≠ id) ∧
      rideStatus (requestRide now s (ReqBody.fields pickup destination pullerId)).1 id =
        ((requestRide now s (ReqBody.fields pickup destination pullerId)).1,
          ⟨200, Body.status "pending"⟩) := by
  have hfresh : ∀ r ∈ s.rides, r.id ≠ rideIdOf s.rideCounter := by
    intro r hr heq
    obtain ⟨k, hk, hk'⟩ := (idsFresh_of_reachable h).1 r hr
    rw [hk'] at heq
    have := rideIdOf_injective heq
    omega
  rw [requestRide_accepted now s pickup destination pullerId hp hd hu hpc hdc]
  refine ⟨rideIdOf s.rideCounter, rfl, hfresh, ?_⟩
  have hfind := findRide_append_new
    (x := newRide s.rideCounter (fieldValue pickup) (fieldValue destination)
      (fieldValue pullerId) now) hfresh
  have hid : (newRide s.rideCounter (fieldValue pickup) (fieldValue destination)
      (fieldValue pullerId) now).id = rideIdOf s.rideCounter := rfl
  rw [hid] at hfind
  simp only [rideStatus, hfind]
  rfl

/-- Witness of the amended C5: on the ledger that already holds the completed `ride_1`,
a request with a pickup given as an array returns `ride_2`, which no earlier ride
carries and whose status is then pending. -/
theorem requestRide_fresh_and_pending_witness :
    Reachable (ledgerAfter 4 "puller_001") ∧
    Truthy (some (Json.arr [Json.str "Noapara", Json.num "2"])) ∧
    Convertible (some (Json.arr [Json.str "Noapara", Json.num "2"])) ∧
    ∃ id, (requestRide "2025-01-01T10:05:00.000Z" (ledgerAfter 4 "puller_001")
        (ReqBody.fields (some (Json.arr [Json.str "Noapara", Json.num "2"]))
          (some (Json.str "Raojan")) (some (Json.str "puller_001")))).2 =
        ⟨201, Body.created "Ride request created successfully." id⟩ ∧
      (∀ r ∈ (ledgerAfter 4 "puller_001").rides, r.id ≠ id) ∧
      rideStatus (requestRide "2025-01-01T10:05:00.000Z" (ledgerAfter 4 "puller_001")
        (ReqBody.fields (some (Json.arr [Json.str "Noapara", Json.num "2"]))
          (some (Json.str "Raojan")) (some (Json.str "puller_001")))).1 id =
        ((requestRide "2025-01-01T10:05:00.000Z" (ledgerAfter 4 "puller_001")
          (ReqBody.fields (some (Json.arr [Json.str "Noapara", Json.num "2"]))
            (some (Json.str "Raojan")) (some (Json.str "puller_001")))).1,
          ⟨200, Body.status "pending"⟩) :=
  ⟨reachable_run Reachable.init _,
    ⟨_, rfl, by decide, by decide, by decide, by decide⟩,
    ⟨_, "Noapara,2", rfl, by decide⟩,
    requestRide_fresh_and_pending (ledgerAfter 4 "puller_001")
      (reachable_run Reachable.init _) "2025-01-01T10:05:00.000Z"
      (some (Json.arr [Json.str "Noapara", Json.num "2"])) (some (Json.str "Raojan"))
      (some (Json.str "puller_001"))
      ⟨_, rfl, by decide, by decide, by decide, by decide⟩
      ⟨_, rfl, by decide, by decide, by decide, by decide⟩
      ⟨_, rfl, by decide, by decide, by decide, by decide⟩
      ⟨_, "Noapara,2", rfl, by decide⟩ ⟨_, "Raojan", rfl, by decide⟩⟩

/-! ## Status transitions -/

/-- C1. In every ledger, so in every reachable one, whatever request is served, the
ride at each position is afterwards a ride with the same id that has either the status
it had or the immediate successor of that status in the order pending, accepted,
in_progress, completed. -/
theorem status_moves_forward (s : Ledger) (now : String) (op : Op)
    (i : Nat) (r : Ride) (hr : s.rides[i]? = some r) :
    ∃ r', (step now s op).1.rides[i]? = some r' ∧ r'.id = r.id ∧
      (r'.status = r.status ∨ nextStatus r.status = some r'.status) := by
  rcases step_cases now s op with h0 | ⟨p, d, u, h0⟩ | ⟨id, ride, hf, hs, h0⟩ |
    ⟨id, ride, hf, hs, h0⟩ | ⟨id, ride, key, hf, hs, _, h0⟩ | ⟨id, ride, hf, hs, _, h0⟩
  · exact ⟨r, by rw [h0]; exact hr, rfl, Or.inl rfl⟩
  · refine ⟨r, ?_, rfl, Or.inl rfl⟩
    rw [h0]
    have hi : i < s.rides.length := (List.getElem?_eq_some_iff.1 hr).1
    simp only [List.getElem?_append_left hi]
    exact hr
  · rw [h0]
    rcases replaceRide_getElem? id (markAccepted now ride) s.rides ride hf i r hr with
      h1 | ⟨h1, h2⟩
    · exact ⟨r, h1, rfl, Or.inl rfl⟩
    · refine ⟨_, h2, by rw [h1]; rfl, Or.inr ?_⟩
      rw [h1, hs]; rfl
  · rw [h0]
    rcases replaceRide_getElem? id (markPickedUp now ride) s.rides ride hf i r hr with
      h1 | ⟨h1, h2⟩
    · exact ⟨r, h1, rfl, Or.inl rfl⟩
    · refine ⟨_, h2, by rw [h1]; rfl, Or.inr ?_⟩
      rw [h1, hs]; rfl
  · rw [h0]
    rcases replaceRide_getElem? id (markCompleted now BASE_POINTS_PER_RIDE ride) s.rides
      ride hf i r hr with h1 | ⟨h1, h2⟩
    · exact ⟨r, h1, rfl, Or.inl rfl⟩
    · refine ⟨_, h2, by rw [h1]; rfl, Or.inr ?_⟩
      rw [h1, hs]; rfl
  · rw [h0]
    rcases replaceRide_getElem? id (markCompleted now BASE_POINTS_PER_RIDE ride) s.rides
      ride hf i r hr with h1 | ⟨h1, h2⟩
    · exact ⟨r, h1, rfl, Or.inl rfl⟩
    · refine ⟨_, h2, by rw [h1]; rfl, Or.inr ?_⟩
      rw [h1, hs]; rfl

/-- Witness of C1: accepting the pending ride of a ledger with one ride moves it from
pending to accepted. -/
theorem status_moves_forward_witness :
    Reachable (ledgerAfter 1 "puller_001") ∧
    (ledgerAfter 1 "puller_001").rides[0]? =
      some (newRide 1 (Json.str "CUET Campus") (Json.str "Pahartoli") (Json.str "puller_001") "2025-01-01T10:00:00.000Z") ∧
    ∃ r', (step "2025-01-01T10:01:00.000Z" (ledgerAfter 1 "puller_001")
        (Op.acceptRide "ride_1")).1.rides[0]? = some r' ∧ r'.id = "ride_1" ∧
      (r'.status = "pending" ∨ nextStatus "pending" = some r'.status) :=
  ⟨reachable_run Reachable.init _, by decide,
    status_moves_forward (ledgerAfter 1 "puller_001")
      "2025-01-01T10:01:00.000Z" (Op.acceptRide "ride_1") 0
      (newRide 1 (Json.str "CUET Campus") (Json.str "Pahartoli") (Json.str "puller_001") "2025-01-01T10:00:00.000Z")
      (by decide)⟩

/-! ## Points of a ride -/

/-- C4. In a reachable ledger the points of a ride are nonzero exactly when its status
is completed. -/
theorem points_nonzero_iff_completed (s : Ledger) (h : Reachable s) (r : Ride)
    (hr : r ∈ s.rides) : r.points ≠ 0 ↔ r.status = "completed" := by
  refine rides_forall_of_reachable (P := fun r => r.points ≠ 0 ↔ r.status = "completed")
    ?_ ?_ ?_ ?_ h r hr
  · intro n p d u now
    simp [newRide]
  · intro r now hP hs
    have h0 : r.points = 0 := by
      by_contra hne
      have := hP.1 hne
      rw [hs] at this
      exact absurd this (by decide)
    simp [markAccepted, h0]
  · intro r now hP hs
    have h0 : r.points = 0 := by
      by_contra hne
      have := hP.1 hne
      rw [hs] at this
      exact absurd this (by decide)
    simp [markPickedUp, h0]
  · intro r now _ _
    simp [markCompleted, BASE_POINTS_PER_RIDE]

/-- Witness of C4: the ride of a full lifecycle is completed and carries 10 points. -/
theorem points_nonzero_iff_completed_witness :
    Reachable (ledgerAfter 4 "puller_001") ∧
    markCompleted "2025-01-01T10:03:00.000Z" 10
      (markPickedUp "2025-01-01T10:02:00.000Z"
        (markAccepted "2025-01-01T10:01:00.000Z"
          (newRide 1 (Json.str "CUET Campus") (Json.str "Pahartoli") (Json.str "puller_001") "2025-01-01T10:00:00.000Z")))
      ∈ (ledgerAfter 4 "puller_001").rides ∧
    ((10 : Nat) ≠ 0 ↔ "completed" = "completed") :=
  ⟨reachable_run Reachable.init _, by decide,
    points_nonzero_iff_completed (ledgerAfter 4 "puller_001")
      (reachable_run Reachable.init _)
      (markCompleted "2025-01-01T10:03:00.000Z" 10
        (markPickedUp "2025-01-01T10:02:00.000Z"
          (markAccepted "2025-01-01T10:01:00.000Z"
            (newRide 1 (Json.str "CUET Campus") (Json.str "Pahartoli") (Json.str "puller_001") "2025-01-01T10:00:00.000Z"))))
      (by decide)⟩

/-! ## Failed transitions and validation -/

/-- C7. For each of the three transitions, when no ride carries the id or the ride
found for it is not in the required prior status (pending for accept, accepted for
pickup, in_progress for drop-off), the handler answers 404 and returns the ledger it
was given: rides, every field of every ride and the puller points are untouched. -/
theorem failed_transition_changes_nothing (now : String) (s : Ledger) (id : String) :
    (((∀ r ∈ s.rides, r.id ≠ id) ∨
        ∃ ride, findRide s.rides id = some ride ∧ ride.status ≠ "pending") →
      acceptRide now s id = (s, ⟨404, Body.message "Unable to accept ride."⟩)) ∧
    (((∀ r ∈ s.rides, r.id ≠ id) ∨
        ∃ ride, findRide s.rides id = some ride ∧ ride.status ≠ "accepted") →
      confirmPickup now s id = (s, ⟨404, Body.message "Unable to confirm pickup."⟩)) ∧
    (((∀ r ∈ s.rides, r.id ≠ id) ∨
        ∃ ride, findRide s.rides id = some ride ∧ ride.status ≠ "in_progress") →
      confirmDropoff now s id = (s, ⟨404, Body.message "Unable to confirm drop-off."⟩)) := by
  refine ⟨?_, ?_, ?_⟩
  · rintro (h | ⟨ride, hf, hs⟩)
    · simp [acceptRide, findRide_none.2 h]
    · simp [acceptRide, hf, hs]
  · rintro (h | ⟨ride, hf, hs⟩)
    · simp [confirmPickup, findRide_none.2 h]
    · simp [confirmPickup, hf, hs]
  · rintro (h | ⟨ride, hf, hs⟩)
    · simp [confirmDropoff, findRide_none.2 h]
    · simp [confirmDropoff, hf, hs]

/-- Witness of C7: on a ledger whose only ride is accepted, accepting it again and
dropping it off fail; on a ledger whose only ride is pending, confirming pickup fails;
and a drop-off for an id no ride carries fails.  Nothing changes. -/
theorem failed_transition_changes_nothing_witness :
    acceptRide "2025-01-01T11:00:00.000Z" (ledgerAfter 2 "puller_001") "ride_1" =
      (ledgerAfter 2 "puller_001", ⟨404, Body.message "Unable to accept ride."⟩) ∧
    confirmPickup "2025-01-01T11:00:00.000Z" (ledgerAfter 1 "puller_001") "ride_1" =
      (ledgerAfter 1 "puller_001", ⟨404, Body.message "Unable to confirm pickup."⟩) ∧
    confirmDropoff "2025-01-01T11:00:00.000Z" (ledgerAfter 2 "puller_001") "ride_1" =
      (ledgerAfter 2 "puller_001", ⟨404, Body.message "Unable to confirm drop-off."⟩) ∧
    confirmDropoff "2025-01-01T11:00:00.000Z" (ledgerAfter 2 "puller_001") "ride_7" =
      (ledgerAfter 2 "puller_001", ⟨404, Body.message "Unable to confirm drop-off."⟩) :=
  ⟨(failed_transition_changes_nothing "2025-01-01T11:00:00.000Z"
      (ledgerAfter 2 "puller_001") "ride_1").1
      (Or.inr ⟨markAccepted "2025-01-01T10:01:00.000Z"
        (newRide 1 (Json.str "CUET Campus") (Json.str "Pahartoli") (Json.str "puller_001") "2025-01-01T10:00:00.000Z"),
        by decide, by decide⟩),
    (failed_transition_changes_nothing "2025-01-01T11:00:00.000Z"
      (ledgerAfter 1 "puller_001") "ride_1").2.1
      (Or.inr ⟨newRide 1 (Json.str "CUET Campus") (Json.str "Pahartoli") (Json.str "puller_001") "2025-01-01T10:00:00.000Z",
        by decide, by decide⟩),
    (failed_transition_changes_nothing "2025-01-01T11:00:00.000Z"
      (ledgerAfter 2 "puller_001") "ride_1").2.2
      (Or.inr ⟨markAccepted "2025-01-01T10:01:00.000Z"
        (newRide 1 (Json.str "CUET Campus") (Json.str "Pahartoli") (Json.str "puller_001") "2025-01-01T10:00:00.000Z"),
        by decide, by decide⟩),
    (failed_transition_changes_nothing "2025-01-01T11:00:00.000Z"
      (ledgerAfter 2 "puller_001") "ride_7").2.2
      (Or.inl (by decide))⟩

/-- C8, as stated, fails on the code.  A request whose pickup is the number zero has
three present, non-empty fields and is answered 400; a request whose pickup is the
empty array has an empty field and is answered 201; a request whose pickup is the object
with the single member `toString` has three present, non-empty fields and is answered
500 after the ride was stored; and a request without parsed body is answered 500. -/
theorem requestRide_validation_by_truthiness :
    PresentNonEmpty (some (Json.num "0")) ∧
    PresentNonEmpty (some (Json.obj [("toString", Json.null)])) ∧
    PresentNonEmpty (some (Json.str "Pahartoli")) ∧
    PresentNonEmpty (some (Json.str "puller_001")) ∧
    ¬ PresentNonEmpty (some (Json.arr [])) ∧
    requestRide "2025-01-01T10:00:00.000Z" initial
      (ReqBody.fields (some (Json.num "0")) (some (Json.str "Pahartoli"))
        (some (Json.str "puller_001"))) =
      (initial, ⟨400, Body.message "Missing required info (pickup, destination, pullerId)."⟩) ∧
    (requestRide "2025-01-01T10:00:00.000Z" initial
      (ReqBody.fields (some (Json.arr [])) (some (Json.str "Pahartoli"))
        (some (Json.str "puller_001")))).2 =
      ⟨201, Body.created "Ride request created successfully." "ride_1"⟩ ∧
    (requestRide "2025-01-01T10:00:00.000Z" initial
      (ReqBody.fields (some (Json.obj [("toString", Json.null)]))
        (some (Json.str "Pahartoli")) (some (Json.str "puller_001")))).2 =
      ⟨500, Body.internalError⟩ ∧
    (requestRide "2025-01-01T10:00:00.000Z" initial
      (ReqBody.fields (some (Json.obj [("toString", Json.null)]))
        (some (Json.str "Pahartoli")) (some (Json.str "puller_001")))).1.rides.length = 1 ∧
    requestRide "2025-01-01T10:00:00.000Z" initial ReqBody.missing =
      (initial, ⟨500, Body.internalError⟩) :=
  ⟨⟨_, rfl, by decide, by decide, by decide, by decide⟩,
    ⟨_, rfl, by decide, by decide, by decide, by decide⟩,
    ⟨_, rfl, by decide, by decide, by decide, by decide⟩,
    ⟨_, rfl, by decide, by decide, by decide, by decide⟩,
    by rintro ⟨v, hv, _, _, h, _⟩; exact h (Option.some.inj hv).symm,
    by decide, by decide, by decide, by decide, by decide⟩

/-- C8, amended.  A ride request with a parsed body whose pickup, destination and puller
id are all truthy (not absent, `null`, `false`, zero or the empty string) and whose
pickup and destination convert to strings is answered 201 with a ride id; when any of
the three is not truthy it is answered 400 and the ledger is returned as it was, so no
ride is created. -/
theorem requestRide_validation (now : String) (s : Ledger)
    (pickup destination pullerId : Option Json) :
    (Truthy pickup ∧ Truthy destination ∧ Truthy pullerId ∧ Convertible pickup ∧
        Convertible destination →
      ∃ id, (requestRide now s (ReqBody.fields pickup destination pullerId)).2 =
        ⟨201, Body.created "Ride request created successfully." id⟩) ∧
    (¬ (Truthy pickup ∧ Truthy destination ∧ Truthy pullerId) →
      requestRide now s (ReqBody.fields pickup destination pullerId) =
        (s, ⟨400, Body.message "Missing required info (pickup, destination, pullerId)."⟩)) := by
  constructor
  · rintro ⟨hp, hd, hu, hpc, hdc⟩
    exact ⟨rideIdOf s.rideCounter, by
      rw [requestRide_accepted now s pickup destination pullerId hp hd hu hpc hdc]⟩
  · exact requestRide_refused now s pickup destination pullerId

/-- Witness of the amended C8: a request with a numeric puller id is answered 201 with
an id, and a request whose destination is `null` is answered 400 without touching the
ledger. -/
theorem requestRide_validation_witness :
    (∃ id, (requestRide "2025-01-01T10:00:00.000Z" initial
        (ReqBody.fields (some (Json.str "CUET Campus")) (some (Json.str "Pahartoli"))
          (some (Json.num "17")))).2 =
        ⟨201, Body.created "Ride request created successfully." id⟩) ∧
    requestRide "2025-01-01T10:00:00.000Z" initial
      (ReqBody.fields (some (Json.str "CUET Campus")) (some Json.null)
        (some (Json.str "puller_001"))) =
      (initial, ⟨400, Body.message "Missing required info (pickup, destination, pullerId)."⟩) :=
  ⟨(requestRide_validation "2025-01-01T10:00:00.000Z" initial (some (Json.str "CUET Campus"))
      (some (Json.str "Pahartoli")) (some (Json.num "17"))).1
      ⟨⟨_, rfl, by decide, by decide, by decide, by decide⟩,
        ⟨_, rfl, by decide, by decide, by decide, by decide⟩,
        ⟨_, rfl, by decide, by decide, by decide, by decide⟩,
        ⟨_, "CUET Campus", rfl, by decide⟩, ⟨_, "Pahartoli", rfl, by decide⟩⟩,
    (requestRide_validation "2025-01-01T10:00:00.000Z" initial (some (Json.str "CUET Campus"))
      (some Json.null) (some (Json.str "puller_001"))).2
      (by rintro ⟨_, ⟨v, hv, h, _⟩, _⟩; exact h (Option.some.inj hv).symm)⟩

/-! ## Successful transitions -/

/-- C9. When the ride found for the id is pending, accepting answers 200 with a ride
that is afterwards the ride found for the id, whose status is accepted, whose accept
time is the current time and whose other fields are those of the ride found before. -/
theorem acceptRide_success (now : String) (s : Ledger) (id : String) (ride : Ride)
    (hf : findRide s.rides id = some ride) (hs : ride.status = "pending") :
    ∃ r', (acceptRide now s id).2 = ⟨200, Body.ride r'⟩ ∧
      findRide (acceptRide now s id).1.rides id = some r' ∧
      r'.status = "accepted" ∧ r'.acceptTime = some now ∧
      r'.id = ride.id ∧ r'.pickup = ride.pickup ∧ r'.destination = ride.destination ∧
      r'.pullerId = ride.pullerId ∧ r'.requestTime = ride.requestTime ∧
      r'.points = ride.points ∧ r'.pickupTime = ride.pickupTime ∧
      r'.dropoffTime = ride.dropoffTime := by
  refine ⟨markAccepted now ride, ?_, ?_, rfl, rfl, rfl, rfl, rfl, rfl, rfl, rfl, rfl, rfl⟩
  · simp [acceptRide, hf, hs]
  · simp only [acceptRide, hf, hs, if_true]
    exact findRide_replaceRide id (markAccepted now ride) (findRide_some hf).2 s.rides ride hf

/-- Witness of C9: accepting the pending `ride_1`. -/
theorem acceptRide_success_witness :
    findRide (ledgerAfter 1 "puller_001").rides "ride_1" =
      some (newRide 1 (Json.str "CUET Campus") (Json.str "Pahartoli") (Json.str "puller_001") "2025-01-01T10:00:00.000Z") ∧
    ∃ r', (acceptRide "2025-01-01T10:01:00.000Z" (ledgerAfter 1 "puller_001") "ride_1").2 =
        ⟨200, Body.ride r'⟩ ∧
      findRide (acceptRide "2025-01-01T10:01:00.000Z" (ledgerAfter 1 "puller_001")
        "ride_1").1.rides "ride_1" = some r' ∧
      r'.status = "accepted" ∧ r'.acceptTime = some "2025-01-01T10:01:00.000Z" ∧
      r'.id = "ride_1" ∧ r'.pickup = Json.str "CUET Campus" ∧
      r'.destination = Json.str "Pahartoli" ∧ r'.pullerId = Json.str "puller_001" ∧ r'.requestTime = "2025-01-01T10:00:00.000Z" ∧
      r'.points = 0 ∧ r'.pickupTime = none ∧ r'.dropoffTime = none :=
  ⟨by decide,
    acceptRide_success "2025-01-01T10:01:00.000Z" (ledgerAfter 1 "puller_001") "ride_1"
      (newRide 1 (Json.str "CUET Campus") (Json.str "Pahartoli") (Json.str "puller_001") "2025-01-01T10:00:00.000Z")
      (by decide) (by decide)⟩

/-- C10. When the ride found for the id is accepted, confirming pickup answers 200 with
a ride that is afterwards the ride found for the id, whose status is in_progress, whose
pickup time is the current time and whose other fields are those of the ride found
before. -/
theorem confirmPickup_success (now : String) (s : Ledger) (id : String) (ride : Ride)
    (hf : findRide s.rides id = some ride) (hs : ride.status = "accepted") :
    ∃ r', (confirmPickup now s id).2 = ⟨200, Body.ride r'⟩ ∧
      findRide (confirmPickup now s id).1.rides id = some r' ∧
      r'.status = "in_progress" ∧ r'.pickupTime = some now ∧
      r'.id = ride.id ∧ r'.pickup = ride.pickup ∧ r'.destination = ride.destination ∧
      r'.pullerId = ride.pullerId ∧ r'.requestTime = ride.requestTime ∧
      r'.points = ride.points ∧ r'.acceptTime = ride.acceptTime ∧
      r'.dropoffTime = ride.dropoffTime := by
  refine ⟨markPickedUp now ride, ?_, ?_, rfl, rfl, rfl, rfl, rfl, rfl, rfl, rfl, rfl, rfl⟩
  · simp [confirmPickup, hf, hs]
  · simp only [confirmPickup, hf, hs, if_true]
    exact findRide_replaceRide id (markPickedUp now ride) (findRide_some hf).2 s.rides ride hf

/-- Witness of C10: confirming the pickup of the accepted `ride_1`. -/
theorem confirmPickup_success_witness :
    findRide (ledgerAfter 2 "puller_001").rides "ride_1" =
      some (markAccepted "2025-01-01T10:01:00.000Z"
        (newRide 1 (Json.str "CUET Campus") (Json.str "Pahartoli") (Json.str "puller_001") "2025-01-01T10:00:00.000Z")) ∧
    ∃ r', (confirmPickup "2025-01-01T10:02:00.000Z" (ledgerAfter 2 "puller_001")
        "ride_1").2 = ⟨200, Body.ride r'⟩ ∧
      findRide (confirmPickup "2025-01-01T10:02:00.000Z" (ledgerAfter 2 "puller_001")
        "ride_1").1.rides "ride_1" = some r' ∧
      r'.status = "in_progress" ∧ r'.pickupTime = some "2025-01-01T10:02:00.000Z" ∧
      r'.id = "ride_1" ∧ r'.pickup = Json.str "CUET Campus" ∧
      r'.destination = Json.str "Pahartoli" ∧ r'.pullerId = Json.str "puller_001" ∧ r'.requestTime = "2025-01-01T10:00:00.000Z" ∧
      r'.points = 0 ∧ r'.acceptTime = some "2025-01-01T10:01:00.000Z" ∧
      r'.dropoffTime = none :=
  ⟨by decide,
    confirmPickup_success "2025-01-01T10:02:00.000Z" (ledgerAfter 2 "puller_001") "ride_1"
      (markAccepted "2025-01-01T10:01:00.000Z"
        (newRide 1 (Json.str "CUET Campus") (Json.str "Pahartoli") (Json.str "puller_001") "2025-01-01T10:00:00.000Z"))
      (by decide) (by decide)⟩

/-! ## The point ledger -/

theorem ownLookup_cons_eq {e : String × JSVal} {k : String} (h : e.1 = k)
    (es : List (String × JSVal)) : ownLookup (e :: es) k = some e.2 := by
  simp [ownLookup, List.find?_cons, h]

theorem ownLookup_cons_ne {e : String × JSVal} {k : String} (h : e.1 ≠ k)
    (es : List (String × JSVal)) : ownLookup (e :: es) k = ownLookup es k := by
  simp [ownLookup, List.find?_cons, h]

theorem ownLookup_setOwn_self (k : String) (v : JSVal) (pp : List (String × JSVal)) :
    ownLookup (setOwn k v pp) k = some v := by
  induction pp with
  | nil => exact ownLookup_cons_eq rfl []
  | cons e es ih =>
    simp only [setOwn]
    split
    · exact ownLookup_cons_eq rfl es
    · rename_i he
      rw [ownLookup_cons_ne he]
      exact ih

theorem ownLookup_setOwn_ne {k p : String} (h : p ≠ k) (v : JSVal)
    (pp : List (String × JSVal)) : ownLookup (setOwn k v pp) p = ownLookup pp p := by
  induction pp with
  | nil =>
    simp only [setOwn]
    exact ownLookup_cons_ne (e := (k, v)) (fun hk => h hk.symm) []
  | cons e es ih =>
    simp only [setOwn]
    split
    · rename_i he
      rw [ownLookup_cons_ne (e := (k, v)) (fun hk => h hk.symm),
        ownLookup_cons_ne (e := e) (fun hk => h (hk.symm.trans he))]
    · by_cases hp : e.1 = p
      · rw [ownLookup_cons_eq hp, ownLookup_cons_eq hp]
      · rw [ownLookup_cons_ne hp, ownLookup_cons_ne hp]
        exact ih

theorem ownLookup_awardPoints_ne {k p : String} (h : p ≠ k) (pp : List (String × JSVal))
    (a : Nat) : ownLookup (awardPoints pp k a) p = ownLookup pp p := by
  unfold awardPoints
  split
  · exact ownLookup_setOwn_ne h _ _
  · exact ownLookup_setOwn_ne h _ _
  · split
    · split
      · rfl
      · exact ownLookup_setOwn_ne h _ _
    · exact ownLookup_setOwn_ne h _ _

/-- The award on a key that `Object.prototype` does not define: a numeric entry grows
by the award, an absent entry is created at the award. -/
theorem ownLookup_awardPoints_plain {k : String} (hk : protoLookup k = none)
    (pp : List (String × JSVal)) (a : Nat) :
    (∀ n, ownLookup pp k = some (JSVal.num n) →
      ownLookup (awardPoints pp k a) k = some (JSVal.num (n + a))) ∧
    (ownLookup pp k = none → ownLookup (awardPoints pp k a) k = some (JSVal.num a)) := by
  constructor
  · intro n hn
    simp only [awardPoints, hn]
    exact ownLookup_setOwn_self _ _ _
  · intro hn
    simp only [awardPoints, hn, hk]
    exact ownLookup_setOwn_self _ _ _

theorem completedPoints_cons (x : Ride) (xs : List Ride) (p : String) :
    completedPoints (x :: xs) p =
      (if x.pullerId.toStr = some p ∧ x.status = "completed" then x.points else 0) +
        completedPoints xs p := by
  by_cases h : x.pullerId.toStr = some p ∧ x.status = "completed"
  · simp [completedPoints, List.filter_cons, h]
  · have hb : (x.pullerId.toStr == some p && x.status == "completed") = false := by
      rcases not_and_or.1 h with h1 | h1 <;> simp [h1]
    simp [completedPoints, List.filter_cons, h, hb]

theorem completedPoints_append_one (l : List Ride) (x : Ride) (p : String) :
    completedPoints (l ++ [x]) p =
      completedPoints l p +
        (if x.pullerId.toStr = some p ∧ x.status = "completed" then x.points else 0) := by
  induction l with
  | nil =>
    rw [List.nil_append, completedPoints_cons]
    simp [completedPoints]
  | cons y ys ih =>
    rw [List.cons_append, completedPoints_cons, completedPoints_cons, ih]
    omega

theorem completedPoints_replaceRide (id : String) (r' : Ride) (p : String) :
    ∀ (l : List Ride) (ride : Ride), findRide l id = some ride →
      ride.status ≠ "completed" →
      completedPoints (replaceRide id r' l) p =
        completedPoints l p +
          (if r'.pullerId.toStr = some p ∧ r'.status = "completed" then r'.points else 0) := by
  intro l
  induction l with
  | nil => intro ride hf; simp [findRide] at hf
  | cons x xs ih =>
    intro ride hf hst
    simp only [replaceRide]
    by_cases hx : x.id = id
    · rw [findRide_cons_eq hx] at hf
      have hxr : x = ride := Option.some.inj hf
      have hxs : ¬ (x.pullerId.toStr = some p ∧ x.status = "completed") := by
        rw [hxr]; exact fun h => hst h.2
      simp only [hx, if_true]
      rw [completedPoints_cons, completedPoints_cons, if_neg hxs]
      omega
    · rw [findRide_cons_ne hx] at hf
      simp only [hx, if_false]
      rw [completedPoints_cons, completedPoints_cons, ih ride hf hst]
      omega

/-- For a puller identifier that is not a property name of `Object.prototype`, the
ledger entry is the sum of the points of that puller's completed rides in every
reachable ledger. -/
theorem entryMatches_of_reachable {s : Ledger} (h : Reachable s) (p : String)
    (hp : protoLookup p = none) : EntryMatches s p := by
  induction h with
  | init =>
    by_cases h1 : "puller_001" = p
    · right
      subst h1
      rfl
    · left
      exact ⟨by rw [initial, ownLookup_cons_ne (e := ("puller_001", JSVal.num 0)) h1]; rfl, rfl⟩
  | @step now op s0 _ ih =>
    rcases step_cases now s0 op with h0 | ⟨a, d, u, h0⟩ | ⟨id, ride, hf, hs, h0⟩ |
      ⟨id, ride, hf, hs, h0⟩ | ⟨id, ride, key, hf, hs, hk, h0⟩ | ⟨id, ride, hf, hs, hk, h0⟩
    · rw [h0]; exact ih
    · rw [h0]
      have hc : completedPoints (s0.rides ++ [newRide s0.rideCounter a d u now]) p =
          completedPoints s0.rides p := by
        rw [completedPoints_append_one]
        simp [newRide]
      simpa only [EntryMatches, hc] using ih
    · rw [h0]
      have hc : completedPoints (replaceRide id (markAccepted now ride) s0.rides) p =
          completedPoints s0.rides p := by
        rw [completedPoints_replaceRide id _ p s0.rides ride hf (by rw [hs]; decide)]
        simp [markAccepted]
      simpa only [EntryMatches, hc] using ih
    · rw [h0]
      have hc : completedPoints (replaceRide id (markPickedUp now ride) s0.rides) p =
          completedPoints s0.rides p := by
        rw [completedPoints_replaceRide id _ p s0.rides ride hf (by rw [hs]; decide)]
        simp [markPickedUp]
      simpa only [EntryMatches, hc] using ih
    · rw [h0]
      have hc := completedPoints_replaceRide id
        (markCompleted now BASE_POINTS_PER_RIDE ride) p s0.rides ride hf (by rw [hs]; decide)
      by_cases hpu : key = p
      · subst hpu
        have hc' : completedPoints
            (replaceRide id (markCompleted now BASE_POINTS_PER_RIDE ride) s0.rides) key =
            completedPoints s0.rides key + BASE_POINTS_PER_RIDE := by
          rw [hc]; simp [markCompleted, hk]
        right
        show ownLookup (awardPoints s0.pullerPoints key BASE_POINTS_PER_RIDE) key =
          some (JSVal.num (completedPoints
            (replaceRide id (markCompleted now BASE_POINTS_PER_RIDE ride) s0.rides) key))
        rw [hc']
        obtain ⟨hnum, hnone⟩ :=
          ownLookup_awardPoints_plain hp s0.pullerPoints BASE_POINTS_PER_RIDE
        rcases ih with ⟨h1, h2⟩ | h1
        · rw [hnone h1, h2, Nat.zero_add]
        · exact hnum _ h1
      · have hc' : completedPoints
            (replaceRide id (markCompleted now BASE_POINTS_PER_RIDE ride) s0.rides) p =
            completedPoints s0.rides p := by
          rw [hc]; simp [markCompleted, hk, hpu]
        have hl : ownLookup (awardPoints s0.pullerPoints key BASE_POINTS_PER_RIDE) p =
            ownLookup s0.pullerPoints p :=
          ownLookup_awardPoints_ne (fun h => hpu h.symm) _ _
        simpa only [EntryMatches, hc', hl] using ih
    · rw [h0]
      have hc : completedPoints
          (replaceRide id (markCompleted now BASE_POINTS_PER_RIDE ride) s0.rides) p =
          completedPoints s0.rides p := by
        rw [completedPoints_replaceRide id _ p s0.rides ride hf (by rw [hs]; decide)]
        simp [markCompleted, hk]
      simpa only [EntryMatches, hc] using ih

/-- C2, at an input where the code departs from it.  A ride requested for the puller
identifier `constructor` and driven to completion is reachable from the initial ledger;
the ledger then has an entry for `constructor` that is a text, not the number 10 that
the completed rides of that puller sum to. -/
theorem ledger_entry_differs_from_completed_sum :
    Reachable (ledgerAfter 4 "constructor") ∧
    ownLookup (ledgerAfter 4 "constructor").pullerPoints "constructor" =
      some (JSVal.str "function Object() \x7b [native code] \x7d10") ∧
    completedPoints (ledgerAfter 4 "constructor").rides "constructor" = 10 :=
  ⟨reachable_run Reachable.init _, by decide, by decide⟩

/-- The drop-off of a ride in progress whose puller id has the property key `key`: the
answer is 200 with the updated ride, which is then the ride found for the id,
completed, timed and worth 10 points; and when `key` is not a property name of
`Object.prototype` a numeric entry grows by 10 and an absent entry is created at 10. -/
theorem confirmDropoff_success (now : String) (s : Ledger) (id : String) (ride : Ride)
    (key : String) (hf : findRide s.rides id = some ride)
    (hs : ride.status = "in_progress") (hk : ride.pullerId.toStr = some key) :
    ∃ r', (confirmDropoff now s id).2 = ⟨200, Body.ride r'⟩ ∧
      findRide (confirmDropoff now s id).1.rides id = some r' ∧
      r'.status = "completed" ∧ r'.dropoffTime = some now ∧ r'.points = 10 ∧
      r'.id = ride.id ∧ r'.pickup = ride.pickup ∧ r'.destination = ride.destination ∧
      r'.pullerId = ride.pullerId ∧ r'.requestTime = ride.requestTime ∧
      r'.acceptTime = ride.acceptTime ∧ r'.pickupTime = ride.pickupTime ∧
      (protoLookup key = none →
        (∀ n, ownLookup s.pullerPoints key = some (JSVal.num n) →
          ownLookup (confirmDropoff now s id).1.pullerPoints key =
            some (JSVal.num (n + 10))) ∧
        (ownLookup s.pullerPoints key = none →
          ownLookup (confirmDropoff now s id).1.pullerPoints key =
            some (JSVal.num 10))) := by
  have hk' : (markCompleted now BASE_POINTS_PER_RIDE ride).pullerId.toStr = some key := hk
  refine ⟨markCompleted now BASE_POINTS_PER_RIDE ride, ?_, ?_, rfl, rfl, rfl, rfl, rfl, rfl,
    rfl, rfl, rfl, rfl, ?_⟩
  · simp [confirmDropoff, hf, hs, hk']
  · simp only [confirmDropoff, hf, hs, if_true, hk']
    exact findRide_replaceRide id (markCompleted now BASE_POINTS_PER_RIDE ride)
      (findRide_some hf).2 s.rides ride hf
  · intro hp
    simp only [confirmDropoff, hf, hs, if_true, hk']
    exact ownLookup_awardPoints_plain hp s.pullerPoints BASE_POINTS_PER_RIDE

/-- C6, at an input where the code departs from it.  The ride `ride_1` of the puller
identifier `constructor` is in progress and the ledger has no entry for that
identifier; the drop-off answers 200, and the entry it creates is a text, not 10. -/
theorem dropoff_award_on_inherited_key :
    (findRide (ledgerAfter 3 "constructor").rides "ride_1").map Ride.status =
      some "in_progress" ∧
    ownLookup (ledgerAfter 3 "constructor").pullerPoints "constructor" = none ∧
    (confirmDropoff "2025-01-01T10:03:00.000Z" (ledgerAfter 3 "constructor")
      "ride_1").2.code = 200 ∧
    ownLookup (confirmDropoff "2025-01-01T10:03:00.000Z" (ledgerAfter 3 "constructor")
      "ride_1").1.pullerPoints "constructor" =
      some (JSVal.str "function Object() \x7b [native code] \x7d10") := by
  decide

/-! ## Creation and status query -/

/-- C11. With the counter at `n`, a ride request whose three fields are truthy (for
strings: present and non-empty) and whose pickup and destination convert to strings
answers 201 with the id `ride_<n>`, appends exactly one ride at the end of the
collection, carrying that id, the given pickup, destination and puller id, status
pending, the current time as request time, 0 points and no accept, pickup or drop-off
time, moves the counter to `n + 1` and leaves the puller points as they were. -/
theorem requestRide_effect (now : String) (s : Ledger) (pickup destination pullerId : Json)
    (hp : Truthy (some pickup)) (hd : Truthy (some destination))
    (hu : Truthy (some pullerId)) (hpc : Convertible (some pickup))
    (hdc : Convertible (some destination)) :
    ∃ r, (requestRide now s
          (ReqBody.fields (some pickup) (some destination) (some pullerId))).2 =
        ⟨201, Body.created "Ride request created successfully." (rideIdOf s.rideCounter)⟩ ∧
      (requestRide now s
          (ReqBody.fields (some pickup) (some destination) (some pullerId))).1.rides =
        s.rides ++ [r] ∧
      r.id = rideIdOf s.rideCounter ∧ r.pickup = pickup ∧ r.destination = destination ∧
      r.pullerId = pullerId ∧ r.status = "pending" ∧ r.requestTime = now ∧ r.points = 0 ∧
      r.acceptTime = none ∧ r.pickupTime = none ∧ r.dropoffTime = none ∧
      (requestRide now s
          (ReqBody.fields (some pickup) (some destination) (some pullerId))).1.rideCounter =
        s.rideCounter + 1 ∧
      (requestRide now s
          (ReqBody.fields (some pickup) (some destination) (some pullerId))).1.pullerPoints =
        s.pullerPoints := by
  rw [requestRide_accepted now s (some pickup) (some destination) (some pullerId) hp hd hu
    hpc hdc]
  exact ⟨newRide s.rideCounter pickup destination pullerId now, rfl, rfl, rfl, rfl, rfl,
    rfl, rfl, rfl, rfl, rfl, rfl, rfl, rfl, rfl⟩

/-- Witness of C11: the first request on the initial ledger creates `ride_1` and moves
the counter to 2. -/
theorem requestRide_effect_witness :
    ∃ r, (requestRide "2025-01-01T10:00:00.000Z" initial
        (ReqBody.fields (some (Json.str "CUET Campus")) (some (Json.str "Pahartoli"))
          (some (Json.str "puller_001")))).2 =
        ⟨201, Body.created "Ride request created successfully." "ride_1"⟩ ∧
      (requestRide "2025-01-01T10:00:00.000Z" initial
        (ReqBody.fields (some (Json.str "CUET Campus")) (some (Json.str "Pahartoli"))
          (some (Json.str "puller_001")))).1.rides = [] ++ [r] ∧
      r.id = "ride_1" ∧ r.pickup = Json.str "CUET Campus" ∧
      r.destination = Json.str "Pahartoli" ∧ r.pullerId = Json.str "puller_001" ∧
      r.status = "pending" ∧ r.requestTime = "2025-01-01T10:00:00.000Z" ∧ r.points = 0 ∧
      r.acceptTime = none ∧ r.pickupTime = none ∧ r.dropoffTime = none ∧
      (requestRide "2025-01-01T10:00:00.000Z" initial
        (ReqBody.fields (some (Json.str "CUET Campus")) (some (Json.str "Pahartoli"))
          (some (Json.str "puller_001")))).1.rideCounter = 1 + 1 ∧
      (requestRide "2025-01-01T10:00:00.000Z" initial
        (ReqBody.fields (some (Json.str "CUET Campus")) (some (Json.str "Pahartoli"))
          (some (Json.str "puller_001")))).1.pullerPoints = [("puller_001", JSVal.num 0)] :=
  requestRide_effect "2025-01-01T10:00:00.000Z" initial (Json.str "CUET Campus")
    (Json.str "Pahartoli") (Json.str "puller_001")
    ⟨_, rfl, by decide, by decide, by decide, by decide⟩
    ⟨_, rfl, by decide, by decide, by decide, by decide⟩
    ⟨_, rfl, by decide, by decide, by decide, by decide⟩
    ⟨_, "CUET Campus", rfl, by decide⟩ ⟨_, "Pahartoli", rfl, by decide⟩

/-- C12. The status query answers 404 exactly when no ride of the collection carries
the id; otherwise a ride is found for the id and the answer is 200 with the status of
that ride.  In both cases the ledger is returned as it was. -/
theorem rideStatus_spec (s : Ledger) (id : String) :
    ((rideStatus s id).2.code = 404 ↔ ∀ r ∈ s.rides, r.id ≠ id) ∧
    ((∀ r ∈ s.rides, r.id ≠ id) →
      (rideStatus s id).2 = ⟨404, Body.message "Ride not found."⟩) ∧
    ((¬ ∀ r ∈ s.rides, r.id ≠ id) →
      ∃ ride, findRide s.rides id = some ride ∧ ride ∈ s.rides ∧ ride.id = id ∧
        (rideStatus s id).2 = ⟨200, Body.status ride.status⟩) ∧
    (rideStatus s id).1 = s := by
  cases hf : findRide s.rides id with
  | none =>
    have hnone := findRide_none.1 hf
    refine ⟨?_, ?_, ?_, ?_⟩
    · exact ⟨fun _ => hnone, fun _ => by simp only [rideStatus, hf]⟩
    · intro _; simp only [rideStatus, hf]
    · intro h; exact absurd hnone h
    · simp only [rideStatus, hf]
  | some ride0 =>
    obtain ⟨hmem, hid⟩ := findRide_some hf
    refine ⟨?_, ?_, ?_, ?_⟩
    · simp only [rideStatus, hf]
      constructor
      · intro h; exact absurd h (by decide)
      · intro h; exact absurd hid (h ride0 hmem)
    · intro h; exact absurd hid (h ride0 hmem)
    · intro _
      exact ⟨ride0, rfl, hmem, hid, by simp only [rideStatus, hf]⟩
    · simp only [rideStatus, hf]

/-- Witness of C12: on the ledger whose only ride is the accepted `ride_1`, the query
for `ride_7` answers 404 and the query for `ride_1` answers 200 with the status of the
ride found. -/
theorem rideStatus_spec_witness :
    (rideStatus (ledgerAfter 2 "puller_001") "ride_7").2 =
      ⟨404, Body.message "Ride not found."⟩ ∧
    ∃ ride, findRide (ledgerAfter 2 "puller_001").rides "ride_1" = some ride ∧
      ride ∈ (ledgerAfter 2 "puller_001").rides ∧ ride.id = "ride_1" ∧
      (rideStatus (ledgerAfter 2 "puller_001") "ride_1").2 =
        ⟨200, Body.status ride.status⟩ :=
  ⟨(rideStatus_spec (ledgerAfter 2 "puller_001") "ride_7").2.1 (by decide),
    (rideStatus_spec (ledgerAfter 2 "puller_001") "ride_1").2.2.1 (by decide)⟩

/-! ## Frame of the point ledger -/

/-- C13. Every request other than a drop-off confirmation answered 200 leaves the
puller points exactly as they were; a drop-off confirmation answered 200 found a ride
for its id and leaves the entry of every puller other than that ride's puller (every
key other than the property key of its puller id) as it was. -/
theorem pullerPoints_frame (now : String) (s : Ledger) (op : Op) :
    ((∀ id, op = Op.confirmDropoff id → (step now s op).2.code ≠ 200) →
      (step now s op).1.pullerPoints = s.pullerPoints) ∧
    (∀ id, op = Op.confirmDropoff id → (step now s op).2.code = 200 →
      ∃ ride, findRide s.rides id = some ride ∧ ride.status = "in_progress" ∧
        ∀ p : String, ride.pullerId.toStr ≠ some p →
          ownLookup (step now s op).1.pullerPoints p = ownLookup s.pullerPoints p) := by
  cases op with
  | requestRide body =>
    refine ⟨fun _ => ?_, fun id h => Op.noConfusion h⟩
    cases body with
    | missing => rfl
    | fields p d u =>
      simp only [step, requestRide]
      split
      · rfl
      · split <;> rfl
  | rides => exact ⟨fun _ => rfl, fun id h => Op.noConfusion h⟩
  | rideStatus id0 =>
    refine ⟨fun _ => ?_, fun id h => Op.noConfusion h⟩
    simp only [step, rideStatus]
    split <;> rfl
  | acceptRide id0 =>
    refine ⟨fun _ => ?_, fun id h => Op.noConfusion h⟩
    simp only [step, acceptRide]
    split
    · split <;> rfl
    · rfl
  | confirmPickup id0 =>
    refine ⟨fun _ => ?_, fun id h => Op.noConfusion h⟩
    simp only [step, confirmPickup]
    split
    · split <;> rfl
    · rfl
  | confirmDropoff id0 =>
    cases hf : findRide s.rides id0 with
    | none =>
      refine ⟨fun _ => by simp only [step, confirmDropoff, hf], fun id _ h => ?_⟩
      simp [step, confirmDropoff, hf] at h
    | some ride =>
      by_cases hs : ride.status = "in_progress"
      · cases hk : ride.pullerId.toStr with
        | none =>
          have hk' : (markCompleted now BASE_POINTS_PER_RIDE ride).pullerId.toStr = none := hk
          refine ⟨fun _ => by simp only [step, confirmDropoff, hf, hs, if_true, hk'],
            fun id _ h => ?_⟩
          simp [step, confirmDropoff, hf, hs, hk'] at h
        | some key =>
          have hk' : (markCompleted now BASE_POINTS_PER_RIDE ride).pullerId.toStr =
              some key := hk
          refine ⟨fun h => ?_, fun id hid _ => ?_⟩
          · exact absurd (by simp [step, confirmDropoff, hf, hs, hk']) (h id0 rfl)
          · have : id0 = id := by injection hid
            subst this
            refine ⟨ride, hf, hs, fun p hp => ?_⟩
            simp only [step, confirmDropoff, hf, hs, if_true, hk']
            exact ownLookup_awardPoints_ne (fun h => hp (by rw [hk, h])) _ _
      · refine ⟨fun _ => by simp only [step, confirmDropoff, hf, hs, if_false],
          fun id _ h => ?_⟩
        simp [step, confirmDropoff, hf, hs] at h

/-- Witness of C13: accepting `ride_1` leaves the puller points as they were, and the
drop-off of `ride_1`, a ride of `puller_002`, leaves the entry of `puller_001` as it
was. -/
theorem pullerPoints_frame_witness :
    (step "2025-01-01T10:01:00.000Z" (ledgerAfter 1 "puller_002")
      (Op.acceptRide "ride_1")).1.pullerPoints = (ledgerAfter 1 "puller_002").pullerPoints ∧
    ∃ ride, findRide (ledgerAfter 3 "puller_002").rides "ride_1" = some ride ∧
      ride.status = "in_progress" ∧
      ∀ p : String, ride.pullerId.toStr ≠ some p →
        ownLookup (step "2025-01-01T10:03:00.000Z" (ledgerAfter 3 "puller_002")
          (Op.confirmDropoff "ride_1")).1.pullerPoints p =
          ownLookup (ledgerAfter 3 "puller_002").pullerPoints p :=
  ⟨(pullerPoints_frame "2025-01-01T10:01:00.000Z" (ledgerAfter 1 "puller_002")
      (Op.acceptRide "ride_1")).1 (fun id h => Op.noConfusion h),
    (pullerPoints_frame "2025-01-01T10:03:00.000Z" (ledgerAfter 3 "puller_002")
      (Op.confirmDropoff "ride_1")).2 "ride_1" rfl (by decide)⟩

/-! ## The rides query -/

theorem rides_ids_step (now : String) (s : Ledger) (op : Op) (rest : List Response)
    (hok : (step now s op).2.code ≠ 500) :
    (step now s op).1.rides.map Ride.id ++ issuedIds rest =
      s.rides.map Ride.id ++ issuedIds ((step now s op).2 :: rest) := by
  cases op with
  | requestRide body =>
    cases body with
    | missing => rfl
    | fields p d u =>
      simp only [step, requestRide] at hok ⊢
      by_cases hcond : (!truthy p || !truthy d || !truthy u) = true
      · simp only [hcond, if_true]
        rfl
      · simp only [hcond, if_false] at hok ⊢
        cases hp : (fieldValue p).toStr with
        | none => simp [hp] at hok
        | some a =>
          cases hd : (fieldValue d).toStr with
          | none => simp [hp, hd] at hok
          | some b => simp [issuedIds]
  | rides => rfl
  | rideStatus id =>
    simp only [step, rideStatus]
    split <;> rfl
  | acceptRide id =>
    simp only [step, acceptRide]
    split
    · rename_i ride hf
      split
      · show (replaceRide id (markAccepted now ride) s.rides).map Ride.id ++ _ = _
        rw [replaceRide_map_id id (markAccepted now ride) (findRide_some hf).2]
        rfl
      · rfl
    · rfl
  | confirmPickup id =>
    simp only [step, confirmPickup]
    split
    · rename_i ride hf
      split
      · show (replaceRide id (markPickedUp now ride) s.rides).map Ride.id ++ _ = _
        rw [replaceRide_map_id id (markPickedUp now ride) (findRide_some hf).2]
        rfl
      · rfl
    · rfl
  | confirmDropoff id =>
    simp only [step, confirmDropoff]
    split
    · rename_i ride hf
      split
      · split
        · show (replaceRide id (markCompleted now BASE_POINTS_PER_RIDE ride) s.rides).map
            Ride.id ++ _ = _
          rw [replaceRide_map_id id (markCompleted now BASE_POINTS_PER_RIDE ride)
            (findRide_some hf).2]
          rfl
        · show (replaceRide id (markCompleted now BASE_POINTS_PER_RIDE ride) s.rides).map
            Ride.id ++ _ = _
          rw [replaceRide_map_id id (markCompleted now BASE_POINTS_PER_RIDE ride)
            (findRide_some hf).2]
          rfl
      · rfl
    · rfl

/-- In a run none of whose requests was answered 500, the ids of the rides are, in
order, the ids already there followed by the ids issued by the 201 responses. -/
theorem rides_ids_run (trace : List (String × Op)) : ∀ s : Ledger,
    (∀ resp ∈ (run s trace).2, resp.code ≠ 500) →
    (run s trace).1.rides.map Ride.id =
      s.rides.map Ride.id ++ issuedIds (run s trace).2 := by
  induction trace with
  | nil => intro s _; simp [run, issuedIds]
  | cons y ys ih =>
    intro s hno
    obtain ⟨now, op⟩ := y
    have h1 : (run s ((now, op) :: ys)).1 = (run (step now s op).1 ys).1 := rfl
    have h2 : (run s ((now, op) :: ys)).2 =
        (step now s op).2 :: (run (step now s op).1 ys).2 := rfl
    rw [h2] at hno
    rw [h1, h2, ih _ (fun resp hresp => hno resp (List.mem_cons_of_mem _ hresp)),
      rides_ids_step now s op _ (hno _ (List.mem_cons_self _ _))]

/-- C14, at an input where the code departs from it.  Served on the initial ledger, a
ride request whose pickup cannot be converted to a string is answered 500, so the run
issued no id; yet the rides query that follows answers 200 with the ride `ride_1`, which
the handler had stored before the failure, and with the counter moved to 2. -/
theorem snapshot_lists_ride_without_issued_id :
    (run initial unloggableRequest).2 = [⟨500, Body.internalError⟩] ∧
    issuedIds (run initial unloggableRequest).2 = [] ∧
    (getRides (run initial unloggableRequest).1).2 =
      ⟨200, Body.snapshot
        [newRide 1 (Json.obj [("toString", Json.null)]) (Json.str "Pahartoli")
          (Json.str "puller_001") "2025-01-01T10:00:00.000Z"]
        [("puller_001", JSVal.num 0)]⟩ ∧
    (run initial unloggableRequest).1.rides.map Ride.id = ["ride_1"] ∧
    (run initial unloggableRequest).1.rideCounter = 2 := by
  decide

/-- The rides query answers 200 with the current rides and puller points and returns
the ledger as it was; after a run none of whose requests was answered 500, the ids of
the rides are, in order, the ids issued by the 201 responses of the run. -/
theorem getRides_snapshot (trace : List (String × Op))
    (hno : ∀ resp ∈ (run initial trace).2, resp.code ≠ 500) :
    (getRides (run initial trace).1).1 = (run initial trace).1 ∧
    ∃ rides, (getRides (run initial trace).1).2 =
        ⟨200, Body.snapshot rides (run initial trace).1.pullerPoints⟩ ∧
      rides = (run initial trace).1.rides ∧
      rides.map Ride.id = issuedIds (run initial trace).2 := by
  refine ⟨rfl, (run initial trace).1.rides, rfl, rfl, ?_⟩
  rw [rides_ids_run trace initial hno]
  simp [initial]

/-! ## Timestamps -/

theorem wellTimed_of_reachable {s : Ledger} (h : Reachable s) :
    ∀ r ∈ s.rides, WellTimed r := by
  refine rides_forall_of_reachable (P := WellTimed) ?_ ?_ ?_ ?_ h
  · intro n p d u now
    exact Or.inl ⟨rfl, rfl, rfl, rfl⟩
  · intro r now hP hs
    rcases hP with h1 | h1 | h1 | h1
    · exact Or.inr (Or.inl ⟨rfl, by simp [markAccepted], h1.2.2.1, h1.2.2.2⟩)
    all_goals exact absurd (h1.1.symm.trans hs) (by decide)
  · intro r now hP hs
    rcases hP with h1 | h1 | h1 | h1
    · exact absurd (h1.1.symm.trans hs) (by decide)
    · exact Or.inr (Or.inr (Or.inl ⟨rfl, h1.2.1, by simp [markPickedUp], h1.2.2.2⟩))
    all_goals exact absurd (h1.1.symm.trans hs) (by decide)
  · intro r now hP hs
    rcases hP with h1 | h1 | h1 | h1
    · exact absurd (h1.1.symm.trans hs) (by decide)
    · exact absurd (h1.1.symm.trans hs) (by decide)
    · exact Or.inr (Or.inr (Or.inr ⟨rfl, h1.2.1, h1.2.2.1, by simp [markCompleted]⟩))
    · exact absurd (h1.1.symm.trans hs) (by decide)

/-- C15. In a reachable ledger every ride (whose request time is a mandatory field of
the record, written at creation) has an accept time exactly when its status is
accepted, in_progress or completed, a pickup time exactly when its status is
in_progress or completed, and a drop-off time exactly when its status is completed. -/
theorem timestamps_follow_status (s : Ledger) (h : Reachable s) (r : Ride)
    (hr : r ∈ s.rides) :
    (r.acceptTime ≠ none ↔
      r.status = "accepted" ∨ r.status = "in_progress" ∨ r.status = "completed") ∧
    (r.pickupTime ≠ none ↔ r.status = "in_progress" ∨ r.status = "completed") ∧
    (r.dropoffTime ≠ none ↔ r.status = "completed") := by
  rcases wellTimed_of_reachable h r hr with h1 | h1 | h1 | h1 <;>
    obtain ⟨hs, ha, hp, hd⟩ := h1 <;>
    simp [hs, ha, hp, hd]

/-- Witness of C15: the ride of the ledger after request, accept and pickup has accept
and pickup times and no drop-off time. -/
theorem timestamps_follow_status_witness :
    Reachable (ledgerAfter 3 "puller_001") ∧
    markPickedUp "2025-01-01T10:02:00.000Z"
      (markAccepted "2025-01-01T10:01:00.000Z"
        (newRide 1 (Json.str "CUET Campus") (Json.str "Pahartoli") (Json.str "puller_001") "2025-01-01T10:00:00.000Z"))
      ∈ (ledgerAfter 3 "puller_001").rides ∧
    ((some "2025-01-01T10:01:00.000Z" ≠ none ↔
      "in_progress" = "accepted" ∨ "in_progress" = "in_progress" ∨
        "in_progress" = "completed") ∧
    (some "2025-01-01T10:02:00.000Z" ≠ none ↔
      "in_progress" = "in_progress" ∨ "in_progress" = "completed") ∧
    ((none : Option String) ≠ none ↔ "in_progress" = "completed")) :=
  ⟨reachable_run Reachable.init _, by decide,
    timestamps_follow_status (ledgerAfter 3 "puller_001") (reachable_run Reachable.init _)
      (markPickedUp "2025-01-01T10:02:00.000Z"
        (markAccepted "2025-01-01T10:01:00.000Z"
          (newRide 1 (Json.str "CUET Campus") (Json.str "Pahartoli") (Json.str "puller_001") "2025-01-01T10:00:00.000Z")))
      (by decide)⟩

/-! ## Persistence of rides -/

theorem replaceRide_keeps (id : String) (r' : Ride) (l : List Ride) (ride : Ride)
    (hf : findRide l id = some ride) (hid : r'.id = ride.id) (hpk : r'.pickup = ride.pickup)
    (hde : r'.destination = ride.destination) (hpu : r'.pullerId = ride.pullerId)
    (hrt : r'.requestTime = ride.requestTime) (i : Nat) (r : Ride) (hr : l[i]? = some r) :
    ∃ x, (replaceRide id r' l)[i]? = some x ∧ x.id = r.id ∧ x.pickup = r.pickup ∧
      x.destination = r.destination ∧ x.pullerId = r.pullerId ∧
      x.requestTime = r.requestTime := by
  rcases replaceRide_getElem? id r' l ride hf i r hr with h1 | ⟨h1, h2⟩
  · exact ⟨r, h1, rfl, rfl, rfl, rfl, rfl⟩
  · subst h1
    exact ⟨r', h2, hid, hpk, hde, hpu, hrt⟩

/-- C16. Whatever request is served, every ride of the collection is afterwards still
at its position with the same id, pickup, destination, puller id and request time; and
a ride request, the rides query and the status query leave it equal in every field. -/
theorem rides_persist (s : Ledger) (now : String) (op : Op) (i : Nat) (r : Ride)
    (hr : s.rides[i]? = some r) :
    ∃ r', (step now s op).1.rides[i]? = some r' ∧ r'.id = r.id ∧ r'.pickup = r.pickup ∧
      r'.destination = r.destination ∧ r'.pullerId = r.pullerId ∧
      r'.requestTime = r.requestTime ∧
      (((∃ body, op = Op.requestRide body) ∨ op = Op.rides ∨ ∃ id, op = Op.rideStatus id) →
        r' = r) := by
  cases op with
  | requestRide body =>
    refine ⟨r, ?_, rfl, rfl, rfl, rfl, rfl, fun _ => rfl⟩
    have happ : ∀ x : Ride, (s.rides ++ [x])[i]? = some r := by
      intro x
      have hi : i < s.rides.length := (List.getElem?_eq_some_iff.1 hr).1
      simp only [List.getElem?_append_left hi]
      exact hr
    cases body with
    | missing => exact hr
    | fields p d u =>
      simp only [step, requestRide]
      split
      · exact hr
      · split <;> exact happ _
  | rides => exact ⟨r, hr, rfl, rfl, rfl, rfl, rfl, fun _ => rfl⟩
  | rideStatus id =>
    refine ⟨r, ?_, rfl, rfl, rfl, rfl, rfl, fun _ => rfl⟩
    simp only [step, rideStatus]
    split <;> exact hr
  | acceptRide id =>
    have hno : ¬ ((∃ body, Op.acceptRide id = Op.requestRide body) ∨
        Op.acceptRide id = Op.rides ∨ ∃ id', Op.acceptRide id = Op.rideStatus id') := by
      rintro (⟨_, h⟩ | h | ⟨_, h⟩) <;> exact Op.noConfusion h
    simp only [step, acceptRide]
    split
    · rename_i ride hf
      split
      · obtain ⟨x, h1, h2, h3, h4, h5, h6⟩ := replaceRide_keeps id (markAccepted now ride)
          s.rides ride hf rfl rfl rfl rfl rfl i r hr
        exact ⟨x, h1, h2, h3, h4, h5, h6, fun h => absurd h hno⟩
      · exact ⟨r, hr, rfl, rfl, rfl, rfl, rfl, fun _ => rfl⟩
    · exact ⟨r, hr, rfl, rfl, rfl, rfl, rfl, fun _ => rfl⟩
  | confirmPickup id =>
    have hno : ¬ ((∃ body, Op.confirmPickup id = Op.requestRide body) ∨
        Op.confirmPickup id = Op.rides ∨ ∃ id', Op.confirmPickup id = Op.rideStatus id') := by
      rintro (⟨_, h⟩ | h | ⟨_, h⟩) <;> exact Op.noConfusion h
    simp only [step, confirmPickup]
    split
    · rename_i ride hf
      split
      · obtain ⟨x, h1, h2, h3, h4, h5, h6⟩ := replaceRide_keeps id (markPickedUp now ride)
          s.rides ride hf rfl rfl rfl rfl rfl i r hr
        exact ⟨x, h1, h2, h3, h4, h5, h6, fun h => absurd h hno⟩
      · exact ⟨r, hr, rfl, rfl, rfl, rfl, rfl, fun _ => rfl⟩
    · exact ⟨r, hr, rfl, rfl, rfl, rfl, rfl, fun _ => rfl⟩
  | confirmDropoff id =>
    have hno : ¬ ((∃ body, Op.confirmDropoff id = Op.requestRide body) ∨
        Op.confirmDropoff id = Op.rides ∨
        ∃ id', Op.confirmDropoff id = Op.rideStatus id') := by
      rintro (⟨_, h⟩ | h | ⟨_, h⟩) <;> exact Op.noConfusion h
    simp only [step, confirmDropoff]
    split
    · rename_i ride hf
      split
      · obtain ⟨x, h1, h2, h3, h4, h5, h6⟩ := replaceRide_keeps id
          (markCompleted now BASE_POINTS_PER_RIDE ride) s.rides ride hf rfl rfl rfl rfl rfl
          i r hr
        split <;> exact ⟨x, h1, h2, h3, h4, h5, h6, fun h => absurd h hno⟩
      · exact ⟨r, hr, rfl, rfl, rfl, rfl, rfl, fun _ => rfl⟩
    · exact ⟨r, hr, rfl, rfl, rfl, rfl, rfl, fun _ => rfl⟩

/-- Witness of C16: after a second ride request the first ride is unchanged at
position 0. -/
theorem rides_persist_witness :
    (ledgerAfter 2 "puller_001").rides[0]? =
      some (markAccepted "2025-01-01T10:01:00.000Z"
        (newRide 1 (Json.str "CUET Campus") (Json.str "Pahartoli") (Json.str "puller_001")
          "2025-01-01T10:00:00.000Z")) ∧
    ∃ r', (step "2025-01-01T10:05:00.000Z" (ledgerAfter 2 "puller_001")
        (Op.requestRide (ReqBody.fields (some (Json.str "Noapara"))
          (some (Json.str "Raojan")) (some (Json.str "puller_001"))))).1.rides[0]? =
        some r' ∧
      r'.id = "ride_1" ∧ r'.pickup = Json.str "CUET Campus" ∧
      r'.destination = Json.str "Pahartoli" ∧ r'.pullerId = Json.str "puller_001" ∧
      r'.requestTime = "2025-01-01T10:00:00.000Z" ∧
      (((∃ body, Op.requestRide (ReqBody.fields (some (Json.str "Noapara"))
            (some (Json.str "Raojan")) (some (Json.str "puller_001"))) =
            Op.requestRide body) ∨
          Op.requestRide (ReqBody.fields (some (Json.str "Noapara"))
            (some (Json.str "Raojan")) (some (Json.str "puller_001"))) = Op.rides ∨
          ∃ id, Op.requestRide (ReqBody.fields (some (Json.str "Noapara"))
            (some (Json.str "Raojan")) (some (Json.str "puller_001"))) =
            Op.rideStatus id) →
        r' = markAccepted "2025-01-01T10:01:00.000Z"
          (newRide 1 (Json.str "CUET Campus") (Json.str "Pahartoli")
            (Json.str "puller_001") "2025-01-01T10:00:00.000Z")) :=
  ⟨by decide,
    rides_persist (ledgerAfter 2 "puller_001") "2025-01-01T10:05:00.000Z"
      (Op.requestRide (ReqBody.fields (some (Json.str "Noapara"))
        (some (Json.str "Raojan")) (some (Json.str "puller_001")))) 0
      (markAccepted "2025-01-01T10:01:00.000Z"
        (newRide 1 (Json.str "CUET Campus") (Json.str "Pahartoli") (Json.str "puller_001")
          "2025-01-01T10:00:00.000Z"))
      (by decide)⟩

/-! ## A transition succeeds at most once -/

theorem findRide_append_of_some {l : List Ride} {id : String} {r : Ride}
    (h : findRide l id = some r) (x : Ride) : findRide (l ++ [x]) id = some r := by
  induction l with
  | nil => simp [findRide] at h
  | cons y ys ih =>
    by_cases hy : y.id = id
    · rw [findRide_cons_eq hy] at h
      rw [List.cons_append, findRide_cons_eq hy]
      exact h
    · rw [findRide_cons_ne hy] at h
      rw [List.cons_append, findRide_cons_ne hy]
      exact ih h

theorem findRide_replaceRide_ne {id id2 : String} (hne : id2 ≠ id) (r' : Ride)
    (h' : r'.id = id2) (l : List Ride) :
    findRide (replaceRide id2 r' l) id = findRide l id := by
  induction l with
  | nil => rfl
  | cons x xs ih =>
    simp only [replaceRide]
    by_cases hx : x.id = id2
    · simp only [hx, if_true]
      rw [findRide_cons_ne (x := r') (by rw [h']; exact hne),
        findRide_cons_ne (x := x) (by rw [hx]; exact hne)]
    · simp only [hx, if_false]
      by_cases hxi : x.id = id
      · rw [findRide_cons_eq hxi, findRide_cons_eq hxi]
      · rw [findRide_cons_ne hxi, findRide_cons_ne hxi]
        exact ih

/-- The ride found for an id stays found, and its status does not move back. -/
theorem findRide_step_rank (now : String) (s : Ledger) (op : Op) (id : String) (r : Ride)
    (hr : findRide s.rides id = some r) :
    ∃ r', findRide (step now s op).1.rides id = some r' ∧
      statusRank r.status ≤ statusRank r'.status := by
  have key : ∀ (id2 : String) (ride r2 : Ride), findRide s.rides id2 = some ride →
      r2.id = ride.id → statusRank ride.status ≤ statusRank r2.status →
      ∃ r', findRide (replaceRide id2 r2 s.rides) id = some r' ∧
        statusRank r.status ≤ statusRank r'.status := by
    intro id2 ride r2 hf hid hrank
    have hid2 : r2.id = id2 := hid.trans (findRide_some hf).2
    by_cases hne : id2 = id
    · subst hne
      have : ride = r := Option.some.inj (hf.symm.trans hr)
      subst this
      exact ⟨r2, findRide_replaceRide id2 r2 hid2 s.rides ride hf, hrank⟩
    · exact ⟨r, by rw [findRide_replaceRide_ne hne r2 hid2]; exact hr, Nat.le_refl _⟩
  rcases step_cases now s op with h0 | ⟨p, d, u, h0⟩ | ⟨id2, ride, hf, hs, h0⟩ |
    ⟨id2, ride, hf, hs, h0⟩ | ⟨id2, ride, key2, hf, hs, _, h0⟩ | ⟨id2, ride, hf, hs, _, h0⟩
  · rw [h0]; exact ⟨r, hr, Nat.le_refl _⟩
  · rw [h0]; exact ⟨r, findRide_append_of_some hr _, Nat.le_refl _⟩
  · rw [h0]
    exact key id2 ride (markAccepted now ride) hf rfl
      (by rw [hs]; show statusRank "pending" ≤ statusRank "accepted"; decide)
  · rw [h0]
    exact key id2 ride (markPickedUp now ride) hf rfl
      (by rw [hs]; show statusRank "accepted" ≤ statusRank "in_progress"; decide)
  · rw [h0]
    exact key id2 ride (markCompleted now BASE_POINTS_PER_RIDE ride) hf rfl
      (by rw [hs]; show statusRank "in_progress" ≤ statusRank "completed"; decide)
  · rw [h0]
    exact key id2 ride (markCompleted now BASE_POINTS_PER_RIDE ride) hf rfl
      (by rw [hs]; show statusRank "in_progress" ≤ statusRank "completed"; decide)

/-- A transition answered 200 leaves the ride found for the id beyond the status the
transition requires. -/
theorem transition_success (t : Transition) (now : String) (s : Ledger) (id : String)
    (h : (step now s (t.request id)).2.code = 200) :
    ∃ r', findRide (step now s (t.request id)).1.rides id = some r' ∧
      statusRank t.required + 1 ≤ statusRank r'.status := by
  cases hf : findRide s.rides id with
  | none =>
    cases t <;> simp [Transition.request, step, acceptRide, confirmPickup, confirmDropoff, hf]
      at h
  | some ride =>
    cases t with
    | accept =>
      by_cases hs : ride.status = "pending"
      · refine ⟨markAccepted now ride, ?_,
          by show statusRank "pending" + 1 ≤ statusRank "accepted"; decide⟩
        simp only [Transition.request, step, acceptRide, hf, hs, if_true]
        exact findRide_replaceRide id (markAccepted now ride) (findRide_some hf).2 s.rides
          ride hf
      · simp [Transition.request, step, acceptRide, hf, hs] at h
    | pickup =>
      by_cases hs : ride.status = "accepted"
      · refine ⟨markPickedUp now ride, ?_,
          by show statusRank "accepted" + 1 ≤ statusRank "in_progress"; decide⟩
        simp only [Transition.request, step, confirmPickup, hf, hs, if_true]
        exact findRide_replaceRide id (markPickedUp now ride) (findRide_some hf).2 s.rides
          ride hf
      · simp [Transition.request, step, confirmPickup, hf, hs] at h
    | dropoff =>
      by_cases hs : ride.status = "in_progress"
      · refine ⟨markCompleted now BASE_POINTS_PER_RIDE ride, ?_,
          by show statusRank "in_progress" + 1 ≤ statusRank "completed"; decide⟩
        simp only [Transition.request, step, confirmDropoff, hf, hs, if_true]
        split <;>
          exact findRide_replaceRide id (markCompleted now BASE_POINTS_PER_RIDE ride)
            (findRide_some hf).2 s.rides ride hf
      · simp [Transition.request, step, confirmDropoff, hf, hs] at h

/-- A transition is answered 404 when the ride found for the id is beyond the status
the transition requires. -/
theorem transition_fails_beyond (t : Transition) (now : String) (s : Ledger) (id : String)
    (r : Ride) (hf : findRide s.rides id = some r)
    (hrank : statusRank t.required + 1 ≤ statusRank r.status) :
    (step now s (t.request id)).2.code = 404 := by
  have hne : r.status ≠ t.required := by
    intro h
    rw [h] at hrank
    omega
  cases t <;>
    simp [Transition.request, Transition.required, step, acceptRide, confirmPickup,
      confirmDropoff, hf] at hne ⊢ <;>
    simp [hne]

theorem successes_zero_beyond (t : Transition) (id : String)
    (trace : List (String × Op)) : ∀ (s : Ledger) (r : Ride),
    findRide s.rides id = some r → statusRank t.required + 1 ≤ statusRank r.status →
      successes (t.request id) trace (run s trace).2 = 0 := by
  induction trace with
  | nil => intro s r _ _; rfl
  | cons y ys ih =>
    intro s r hf hrank
    obtain ⟨now, op⟩ := y
    obtain ⟨r', hf', hle⟩ := findRide_step_rank now s op id r hf
    have hrest := ih (step now s op).1 r' hf' (Nat.le_trans hrank hle)
    show (if op = t.request id ∧ (step now s op).2.code = 200 then 1 else 0) +
      successes (t.request id) ys (run (step now s op).1 ys).2 = 0
    rw [hrest]
    by_cases hop : op = t.request id
    · subst hop
      have := transition_fails_beyond t now s id r hf hrank
      simp [this]
    · simp [hop]

theorem successes_le_one (t : Transition) (id : String) (trace : List (String × Op)) :
    ∀ s : Ledger, successes (t.request id) trace (run s trace).2 ≤ 1 := by
  induction trace with
  | nil => intro s; exact Nat.zero_le _
  | cons y ys ih =>
    intro s
    obtain ⟨now, op⟩ := y
    show (if op = t.request id ∧ (step now s op).2.code = 200 then 1 else 0) +
      successes (t.request id) ys (run (step now s op).1 ys).2 ≤ 1
    by_cases hwin : op = t.request id ∧ (step now s op).2.code = 200
    · obtain ⟨hop, hcode⟩ := hwin
      subst hop
      obtain ⟨r', hf', hrank⟩ := transition_success t now s id hcode
      rw [successes_zero_beyond t id ys _ r' hf' hrank]
      simp [hcode]
    · rw [if_neg hwin, Nat.zero_add]
      exact ih _

/-- C17. In every finite sequence of requests served from the initial ledger and for
every ride id, each of accept, pickup confirmation and drop-off confirmation is
answered 200 on that id at most once; in particular an accept that follows a
successful accept of the same id is answered 404. -/
theorem transition_wins_once (trace : List (String × Op)) (id : String) :
    successes (Op.acceptRide id) trace (run initial trace).2 ≤ 1 ∧
    successes (Op.confirmPickup id) trace (run initial trace).2 ≤ 1 ∧
    successes (Op.confirmDropoff id) trace (run initial trace).2 ≤ 1 ∧
    ∀ now now', (acceptRide now (run initial trace).1 id).2.code = 200 →
      (acceptRide now' (acceptRide now (run initial trace).1 id).1 id).2.code = 404 := by
  refine ⟨successes_le_one Transition.accept id trace initial,
    successes_le_one Transition.pickup id trace initial,
    successes_le_one Transition.dropoff id trace initial, ?_⟩
  intro now now' h
  obtain ⟨r', hf', hrank⟩ :=
    transition_success Transition.accept now (run initial trace).1 id h
  exact transition_fails_beyond Transition.accept now' _ id r' hf' hrank

/-- Witness of C17: after the first ride request, accepting `ride_1` succeeds and
accepting it again is answered 404. -/
theorem transition_wins_once_witness :
    (acceptRide "2025-01-01T10:01:00.000Z"
      (run initial ((fullRide "puller_001").take 1)).1 "ride_1").2.code = 200 ∧
    (acceptRide "2025-01-01T10:01:30.000Z"
      (acceptRide "2025-01-01T10:01:00.000Z"
        (run initial ((fullRide "puller_001").take 1)).1 "ride_1").1 "ride_1").2.code = 404 :=
  ⟨by decide,
    (transition_wins_once ((fullRide "puller_001").take 1) "ride_1").2.2.2
      "2025-01-01T10:01:00.000Z" "2025-01-01T10:01:30.000Z" (by decide)⟩

/-! ## Indistinguishable failures -/

/-- C18. For each of the three transitions, the response given when no ride carries
the id is the same, status code and message, as the response given when the ride found
for an id is not in the required prior status. -/
theorem failure_responses_coincide (now now' : String) (s s' : Ledger) (id id' : String)
    (hmiss : ∀ r ∈ s.rides, r.id ≠ id) (ride : Ride)
    (hf : findRide s'.rides id' = some ride) :
    (ride.status ≠ "pending" → (acceptRide now s id).2 = (acceptRide now' s' id').2) ∧
    (ride.status ≠ "accepted" →
      (confirmPickup now s id).2 = (confirmPickup now' s' id').2) ∧
    (ride.status ≠ "in_progress" →
      (confirmDropoff now s id).2 = (confirmDropoff now' s' id').2) := by
  have hnone := findRide_none.2 hmiss
  refine ⟨fun hs => ?_, fun hs => ?_, fun hs => ?_⟩
  · simp [acceptRide, hnone, hf, hs]
  · simp [confirmPickup, hnone, hf, hs]
  · simp [confirmDropoff, hnone, hf, hs]

/-- Witness of C18: on the ledger whose only ride is the completed `ride_1`, each
transition gives the same response for the unknown `ride_7` as for `ride_1`. -/
theorem failure_responses_coincide_witness :
    (acceptRide "2025-01-01T11:00:00.000Z" (ledgerAfter 4 "puller_001") "ride_7").2 =
      (acceptRide "2025-01-01T11:00:00.000Z" (ledgerAfter 4 "puller_001") "ride_1").2 ∧
    (confirmPickup "2025-01-01T11:00:00.000Z" (ledgerAfter 4 "puller_001") "ride_7").2 =
      (confirmPickup "2025-01-01T11:00:00.000Z" (ledgerAfter 4 "puller_001") "ride_1").2 ∧
    (confirmDropoff "2025-01-01T11:00:00.000Z" (ledgerAfter 4 "puller_001") "ride_7").2 =
      (confirmDropoff "2025-01-01T11:00:00.000Z" (ledgerAfter 4 "puller_001") "ride_1").2 :=
  have h := failure_responses_coincide "2025-01-01T11:00:00.000Z" "2025-01-01T11:00:00.000Z"
    (ledgerAfter 4 "puller_001") (ledgerAfter 4 "puller_001") "ride_7" "ride_1"
    (by decide)
    (markCompleted "2025-01-01T10:03:00.000Z" 10
      (markPickedUp "2025-01-01T10:02:00.000Z"
        (markAccepted "2025-01-01T10:01:00.000Z"
          (newRide 1 (Json.str "CUET Campus") (Json.str "Pahartoli") (Json.str "puller_001") "2025-01-01T10:00:00.000Z"))))
    (by decide)
  ⟨h.1 (by decide), h.2.1 (by decide), h.2.2 (by decide)⟩

/-! ## Sequential ids -/

theorem firstIds_succ (k : Nat) : firstIds (k + 1) = firstIds k ++ [rideIdOf (k + 1)] := by
  simp [firstIds, List.range_succ]

/-- C19. In a reachable ledger with `k` rides the ids are `ride_1`, ..., `ride_k` in
that order and the counter is `k + 1`; a ride request that fails validation leaves the
counter and the rides as they were, so it consumes no id. -/
theorem ids_are_sequential (s : Ledger) (h : Reachable s) :
    s.rides.map Ride.id = firstIds s.rides.length ∧
    s.rideCounter = s.rides.length + 1 ∧
    ∀ now pickup destination pullerId,
      ¬ (Truthy pickup ∧ Truthy destination ∧ Truthy pullerId) →
      (requestRide now s (ReqBody.fields pickup destination pullerId)).1.rideCounter =
        s.rideCounter ∧
      (requestRide now s (ReqBody.fields pickup destination pullerId)).1.rides = s.rides := by
  have hinv : s.rides.map Ride.id = firstIds s.rides.length ∧
      s.rideCounter = s.rides.length + 1 := by
    induction h with
    | init => exact ⟨rfl, rfl⟩
    | @step now op s0 _ ih =>
      obtain ⟨ih1, ih2⟩ := ih
      rcases step_cases now s0 op with h0 | ⟨p, d, u, h0⟩ | ⟨id, ride, hf, _, h0⟩ |
        ⟨id, ride, hf, _, h0⟩ | ⟨id, ride, key, hf, _, _, h0⟩ | ⟨id, ride, hf, _, _, h0⟩
      · rw [h0]; exact ⟨ih1, ih2⟩
      · rw [h0]
        constructor
        · show (s0.rides ++ [newRide s0.rideCounter p d u now]).map Ride.id =
            firstIds (s0.rides ++ [newRide s0.rideCounter p d u now]).length
          rw [List.map_append, List.length_append, List.length_singleton, firstIds_succ,
            ih1, ih2]
          rfl
        · show s0.rideCounter + 1 =
            (s0.rides ++ [newRide s0.rideCounter p d u now]).length + 1
          rw [List.length_append, List.length_singleton, ih2]
      · rw [h0]
        constructor
        · show (replaceRide id (markAccepted now ride) s0.rides).map Ride.id = firstIds _
          rw [replaceRide_map_id id (markAccepted now ride) (findRide_some hf).2,
            replaceRide_length]
          exact ih1
        · show s0.rideCounter = (replaceRide id (markAccepted now ride) s0.rides).length + 1
          rw [replaceRide_length]; exact ih2
      · rw [h0]
        constructor
        · show (replaceRide id (markPickedUp now ride) s0.rides).map Ride.id = firstIds _
          rw [replaceRide_map_id id (markPickedUp now ride) (findRide_some hf).2,
            replaceRide_length]
          exact ih1
        · show s0.rideCounter = (replaceRide id (markPickedUp now ride) s0.rides).length + 1
          rw [replaceRide_length]; exact ih2
      · rw [h0]
        constructor
        · show (replaceRide id (markCompleted now BASE_POINTS_PER_RIDE ride)
            s0.rides).map Ride.id = firstIds _
          rw [replaceRide_map_id id (markCompleted now BASE_POINTS_PER_RIDE ride)
            (findRide_some hf).2, replaceRide_length]
          exact ih1
        · show s0.rideCounter =
            (replaceRide id (markCompleted now BASE_POINTS_PER_RIDE ride) s0.rides).length + 1
          rw [replaceRide_length]; exact ih2
      · rw [h0]
        constructor
        · show (replaceRide id (markCompleted now BASE_POINTS_PER_RIDE ride)
            s0.rides).map Ride.id = firstIds _
          rw [replaceRide_map_id id (markCompleted now BASE_POINTS_PER_RIDE ride)
            (findRide_some hf).2, replaceRide_length]
          exact ih1
        · show s0.rideCounter =
            (replaceRide id (markCompleted now BASE_POINTS_PER_RIDE ride) s0.rides).length + 1
          rw [replaceRide_length]; exact ih2
  refine ⟨hinv.1, hinv.2, ?_⟩
  intro now pickup destination pullerId hbad
  rw [requestRide_refused now s pickup destination pullerId hbad]
  exact ⟨rfl, rfl⟩

/-- Witness of C19: after a full lifecycle of one ride the ids are `ride_1` alone and
the counter is 2, and a request without puller id then leaves the counter at 2. -/
theorem ids_are_sequential_witness :
    Reachable (ledgerAfter 4 "puller_001") ∧
    (ledgerAfter 4 "puller_001").rides.map Ride.id = ["ride_1"] ∧
    (ledgerAfter 4 "puller_001").rideCounter = 2 ∧
    (requestRide "2025-01-01T12:00:00.000Z" (ledgerAfter 4 "puller_001")
      (ReqBody.fields (some (Json.str "Noapara")) (some (Json.str "Raojan"))
        none)).1.rideCounter = 2 :=
  have h := ids_are_sequential (ledgerAfter 4 "puller_001") (reachable_run Reachable.init _)
  ⟨reachable_run Reachable.init _, h.1, h.2.1,
    (h.2.2 "2025-01-01T12:00:00.000Z" (some (Json.str "Noapara")) (some (Json.str "Raojan"))
      none (by rintro ⟨_, _, ⟨v, hv, _⟩⟩; exact Option.noConfusion hv)).1⟩

/-! ## A successful transition touches one ride -/

/-- The in-place update changes the position of the ride found and no other. -/
theorem replaceRide_one (id : String) (r' : Ride) :
    ∀ (l : List Ride) (ride : Ride), findRide l id = some ride →
      ∃ j : Nat, l[j]? = some ride ∧ (replaceRide id r' l)[j]? = some r' ∧
        ∀ i : Nat, i ≠ j → (replaceRide id r' l)[i]? = l[i]? := by
  intro l
  induction l with
  | nil => intro ride hf; simp [findRide] at hf
  | cons x xs ih =>
    intro ride hf
    by_cases hx : x.id = id
    · rw [findRide_cons_eq hx] at hf
      have hxr : x = ride := Option.some.inj hf
      refine ⟨0, by simp [hxr], by simp [replaceRide, hx], ?_⟩
      intro i hi
      cases i with
      | zero => exact absurd rfl hi
      | succ k => simp [replaceRide, hx]
    · rw [findRide_cons_ne hx] at hf
      obtain ⟨j, h1, h2, h3⟩ := ih ride hf
      refine ⟨j + 1, by simpa using h1, by simpa [replaceRide, hx] using h2, ?_⟩
      intro i hi
      cases i with
      | zero => simp [replaceRide, hx]
      | succ k =>
        have := h3 k (fun h => hi (by rw [h]))
        simpa [replaceRide, hx] using this

/-- A transition answered 200 replaced the ride found for its id by a ride with the
same id and another status, and did nothing else to the rides or the counter. -/
theorem transition_shape (now : String) (s : Ledger) (op : Op) (id : String)
    (hop : op = Op.acceptRide id ∨ op = Op.confirmPickup id ∨ op = Op.confirmDropoff id)
    (hok : (step now s op).2.code = 200) :
    ∃ ride r2, findRide s.rides id = some ride ∧ r2.id = ride.id ∧
      r2.status ≠ ride.status ∧
      (step now s op).1.rides = replaceRide id r2 s.rides ∧
      (step now s op).1.rideCounter = s.rideCounter := by
  cases hf : findRide s.rides id with
  | none =>
    rcases hop with h | h | h <;> subst h <;>
      simp [step, acceptRide, confirmPickup, confirmDropoff, hf] at hok
  | some ride =>
    rcases hop with h | h | h <;> subst h
    · by_cases hs : ride.status = "pending"
      · refine ⟨ride, markAccepted now ride, rfl, rfl, ?_, ?_, ?_⟩
        · rw [hs]; show "accepted" ≠ "pending"; decide
        · simp only [step, acceptRide, hf, hs, if_true]
        · simp only [step, acceptRide, hf, hs, if_true]
      · simp [step, acceptRide, hf, hs] at hok
    · by_cases hs : ride.status = "accepted"
      · refine ⟨ride, markPickedUp now ride, rfl, rfl, ?_, ?_, ?_⟩
        · rw [hs]; show "in_progress" ≠ "accepted"; decide
        · simp only [step, confirmPickup, hf, hs, if_true]
        · simp only [step, confirmPickup, hf, hs, if_true]
      · simp [step, confirmPickup, hf, hs] at hok
    · by_cases hs : ride.status = "in_progress"
      · refine ⟨ride, markCompleted now BASE_POINTS_PER_RIDE ride, rfl, rfl, ?_, ?_, ?_⟩
        · rw [hs]; show "completed" ≠ "in_progress"; decide
        · simp only [step, confirmDropoff, hf, hs, if_true]
          split <;> rfl
        · simp only [step, confirmDropoff, hf, hs, if_true]
          split <;> rfl
      · simp [step, confirmDropoff, hf, hs] at hok

/-- C20. In a reachable ledger, an accept, pickup confirmation or drop-off confirmation
answered 200 for the id `id` changes one ride: there is a position holding a ride with
that id, the only such position, whose ride is different afterwards but keeps the id;
every other position, and so every ride with another id, holds afterwards the very
same ride; the length and the order of the ids of the collection and the counter are
as before. -/
theorem transition_touches_one_ride (s : Ledger) (h : Reachable s) (now : String) (op : Op)
    (id : String)
    (hop : op = Op.acceptRide id ∨ op = Op.confirmPickup id ∨ op = Op.confirmDropoff id)
    (hok : (step now s op).2.code = 200) :
    (∃ (j : Nat) (r r' : Ride), s.rides[j]? = some r ∧ r.id = id ∧
      (step now s op).1.rides[j]? = some r' ∧ r'.id = id ∧ r' ≠ r ∧
      (∀ i : Nat, i ≠ j → (step now s op).1.rides[i]? = s.rides[i]?) ∧
      (∀ (i : Nat) (x : Ride), s.rides[i]? = some x → x.id = id → i = j)) ∧
    (∀ (i : Nat) (x : Ride), s.rides[i]? = some x → x.id ≠ id →
      (step now s op).1.rides[i]? = some x) ∧
    (step now s op).1.rides.length = s.rides.length ∧
    (step now s op).1.rides.map Ride.id = s.rides.map Ride.id ∧
    (step now s op).1.rideCounter = s.rideCounter := by
  obtain ⟨ride, r2, hf, hid, hst, hrides, hctr⟩ := transition_shape now s op id hop hok
  have hrid : ride.id = id := (findRide_some hf).2
  obtain ⟨j, hj, hj', hother⟩ := replaceRide_one id r2 s.rides ride hf
  have hnodup := (idsFresh_of_reachable h).2
  have huniq : ∀ (i : Nat) (x : Ride), s.rides[i]? = some x → x.id = id → i = j := by
    intro i x hi hx
    have hi' : i < (s.rides.map Ride.id).length := by
      rw [List.length_map]; exact (List.getElem?_eq_some_iff.1 hi).1
    apply List.getElem?_inj hi' hnodup
    rw [List.getElem?_map, List.getElem?_map, hi, hj]
    simp [hx, hrid]
  rw [hrides]
  refine ⟨⟨j, ride, r2, hj, hrid, hj', hid.trans hrid, ?_, hother, huniq⟩, ?_,
    replaceRide_length _ _ _, replaceRide_map_id id r2 (hid.trans hrid) s.rides, hctr⟩
  · intro heq
    exact hst (by rw [heq])
  · intro i x hi hx
    rw [hother i (fun hij => hx (by
      rw [hij, hj] at hi
      rw [← Option.some.inj hi]; exact hrid))]
    exact hi

/-- Witness of C20: confirming the pickup of the accepted `ride_1` changes the ride at
position 0 and leaves the length, the ids and the counter as they were. -/
theorem transition_touches_one_ride_witness :
    Reachable (ledgerAfter 2 "puller_001") ∧
    (step "2025-01-01T10:02:00.000Z" (ledgerAfter 2 "puller_001")
      (Op.confirmPickup "ride_1")).2.code = 200 ∧
    (step "2025-01-01T10:02:00.000Z" (ledgerAfter 2 "puller_001")
      (Op.confirmPickup "ride_1")).1.rides.length = (ledgerAfter 2 "puller_001").rides.length ∧
    (step "2025-01-01T10:02:00.000Z" (ledgerAfter 2 "puller_001")
      (Op.confirmPickup "ride_1")).1.rides.map Ride.id =
      (ledgerAfter 2 "puller_001").rides.map Ride.id ∧
    (step "2025-01-01T10:02:00.000Z" (ledgerAfter 2 "puller_001")
      (Op.confirmPickup "ride_1")).1.rideCounter = (ledgerAfter 2 "puller_001").rideCounter :=
  ⟨reachable_run Reachable.init _, by decide,
    (transition_touches_one_ride (ledgerAfter 2 "puller_001")
      (reachable_run Reachable.init _) "2025-01-01T10:02:00.000Z" (Op.confirmPickup "ride_1")
      "ride_1" (Or.inr (Or.inl rfl)) (by decide)).2.2⟩

end AERAS
